import Mathlib

/-!
# Conway-Chaos-Boxes: the automaton core of `sketch.js`

A shallow embedding of the classes `Automata`, `GameOfLife` and
`SymmetricAutomata` of `src/sketch.js`, followed by the properties of the
simulation core that are proved about them.

Modelling conventions.

* A JavaScript array of arrays of numbers is a `List (List Int)`; the outer
  list holds the columns (`grid[i]`), each column holds the cells of its rows
  (`grid[i][j]`).
* `for (let i = 0; i < n; i++) body` is a left fold of `body` over
  `List.range n`, threading the variables the body assigns to.
* `for (let i = 0; i < this.cols / 2; i++)`: `/` is the exact quotient of
  JavaScript numbers, so the loop runs over the integers `i` with
  `2 * i < cols`, that is over `List.range ((cols + 1) / 2)`.
* `floor(random(2))` consumes one draw of the random source: the source is a
  function `rnd : Nat → Int` and a counter of the draws made so far.
* `%` of JavaScript truncates towards zero: `Int.tmod`.
* `getCell` and `setCell` are total: a read outside the buffer yields `0` and
  a write outside the buffer is dropped. The definitions named `...Checked`
  repeat the methods with `readCell?` and `writeCell?`, which return `none`
  on an index outside the buffer.
* A `throw` is an `Except.error`; `new Array(n)` throws a `RangeError` unless
  `0 ≤ n < 2^32`. The memory an allocation takes is not modelled.
-/

namespace Sketch

/-- The cell buffer: a list of columns, each a list of cells. -/
abbrev Grid := List (List Int)

/-- Reading `grid[c][r]`. -/
def getCell (grid : Grid) (c r : Nat) : Int :=
  (grid.getD c []).getD r 0

/-- The assignment `grid[c][r] = v` to a cell of the buffer. -/
def setCell (grid : Grid) (c r : Nat) (v : Int) : Grid :=
  grid.set c ((grid.getD c []).set r v)

/-- The fields of `class Automata` (shared by both subclasses). -/
structure Automata where
  cols : Nat
  rows : Nat
  resolution : Nat
  grid : Grid
deriving DecidableEq, Repr

/-- The global `config` object, restricted to the two rule lists. -/
structure Config where
  birthRule : List Int
  survivalRule : List Int
deriving DecidableEq, Repr

/-- The `config` literal of the sketch: `birthRule: [3]`, `survivalRule: [2, 3]`. -/
def config : Config := { birthRule := [3], survivalRule := [2, 3] }

/-- The three values `-1, 0, 1` taken by `for (let i = -1; i < 2; i++)`. -/
def offsets : List Int := [-1, 0, 1]

/-- The wrapped index `(x + d + n) % n` of `countNeighbors`. -/
def wrapIndex (x : Nat) (d : Int) (n : Nat) : Nat :=
  (Int.tmod ((x : Int) + d + (n : Int)) (n : Int)).toNat

/-- The number of iterations of `for (let i = 0; i < cols / 2; i++)`. -/
def halfCols (cols : Nat) : Nat := (cols + 1) / 2

/-- `Automata.make2DArray(cols, rows)`: `cols` fresh columns of `rows` zeros. -/
def Automata.make2DArray (cols rows : Nat) : Grid :=
  (List.range cols).foldl (fun arr _ => arr ++ [List.replicate rows 0]) []

/-- `Automata.countNeighbors(grid, x, y)`. -/
def Automata.countNeighbors (self : Automata) (grid : Grid) (x y : Nat) : Int :=
  let sum := offsets.foldl (fun sum i =>
    offsets.foldl (fun sum j =>
      let col := wrapIndex x i self.cols
      let row := wrapIndex y j self.rows
      sum + getCell grid col row) sum) 0
  sum - getCell grid x y

/-- The constructor of `Automata`. -/
def Automata.new (cols rows resolution : Nat) : Automata :=
  { cols := cols, rows := rows, resolution := resolution,
    grid := Automata.make2DArray cols rows }

/-- `Automata.initialize()`: every cell receives a fresh draw. The result is
the automaton and the number of draws consumed so far. -/
def Automata.initialize (rnd : Nat → Int) (k : Nat) (self : Automata) : Automata × Nat :=
  let st := (List.range self.cols).foldl (fun st i =>
    (List.range self.rows).foldl (fun (st : Grid × Nat) j =>
      (setCell st.1 i j (rnd st.2), st.2 + 1)) st) (self.grid, k)
  ({ self with grid := st.1 }, st.2)

/-- The value that the `if` chain of `GameOfLife.nextGeneration` assigns to
`next[i][j]`, as a function of `state` and `neighbors`. -/
def GameOfLife.rule (cfg : Config) (state neighbors : Int) : Int :=
  if state = 0 ∧ cfg.birthRule.contains neighbors then 1
  else if state = 1 ∧ ¬ cfg.survivalRule.contains neighbors then 0
  else state

/-- `GameOfLife.nextGeneration()`, reading the rule lists of `cfg`. -/
def GameOfLife.nextGeneration (cfg : Config) (self : Automata) : Automata :=
  let next := Automata.make2DArray self.cols self.rows
  let next := (List.range self.cols).foldl (fun next i =>
    (List.range self.rows).foldl (fun next j =>
      let state := getCell self.grid i j
      let neighbors := self.countNeighbors self.grid i j
      if state = 0 ∧ cfg.birthRule.contains neighbors then
        setCell next i j 1
      else if state = 1 ∧ ¬ cfg.survivalRule.contains neighbors then
        setCell next i j 0
      else
        setCell next i j state) next) next
  { self with grid := next }

/-- `SymmetricAutomata.countNeighbors(grid, x, y)`: the override, with the
same body as the method of the base class. -/
def SymmetricAutomata.countNeighbors (self : Automata) (grid : Grid) (x y : Nat) : Int :=
  let sum := offsets.foldl (fun sum i =>
    offsets.foldl (fun sum j =>
      let col := wrapIndex x i self.cols
      let row := wrapIndex y j self.rows
      sum + getCell grid col row) sum) 0
  sum - getCell grid x y

/-- `SymmetricAutomata.initializeSymmetric()`: one draw per cell of the
columns `i` with `i < cols / 2`, copied into column `cols - i - 1`. -/
def SymmetricAutomata.initializeSymmetric (rnd : Nat → Int) (k : Nat) (self : Automata) :
    Automata × Nat :=
  let st := (List.range (halfCols self.cols)).foldl (fun st i =>
    (List.range self.rows).foldl (fun (st : Grid × Nat) j =>
      let g := setCell st.1 i j (rnd st.2)
      (setCell g (self.cols - i - 1) j (getCell g i j), st.2 + 1)) st) (self.grid, k)
  ({ self with grid := st.1 }, st.2)

/-- The constructor of `SymmetricAutomata`: `super(...)` and then
`this.initializeSymmetric()`. -/
def SymmetricAutomata.new (rnd : Nat → Int) (k : Nat) (cols rows resolution : Nat) :
    Automata × Nat :=
  SymmetricAutomata.initializeSymmetric rnd k (Automata.new cols rows resolution)

/-- The loop of `SymmetricAutomata.nextGeneration()`: the buffer `next` and
the counter `changes` after the two nested loops. -/
def SymmetricAutomata.nextLoop (self : Automata) : Grid × Nat :=
  let next := Automata.make2DArray self.cols self.rows
  let changes := 0
  (List.range (halfCols self.cols)).foldl (fun st i =>
    (List.range self.rows).foldl (fun (st : Grid × Nat) j =>
      let state := getCell self.grid i j
      let neighbors := SymmetricAutomata.countNeighbors self self.grid i j
      let st1 : Grid × Nat :=
        if state = 0 ∧ neighbors = 3 then
          (setCell st.1 i j 1, st.2 + 1)
        else if state = 1 ∧ (neighbors < 2 ∨ neighbors > 3) then
          (setCell st.1 i j 0, st.2 + 1)
        else
          (setCell st.1 i j state, st.2)
      (setCell st1.1 (self.cols - i - 1) j (getCell st1.1 i j), st1.2)) st) (next, changes)

/-- `SymmetricAutomata.nextGeneration()`: the automaton after `this.grid = next`. -/
def SymmetricAutomata.nextGeneration (self : Automata) : Automata :=
  { self with grid := (SymmetricAutomata.nextLoop self).1 }

/-- The value of `changes` that `SymmetricAutomata.nextGeneration()` logs. -/
def SymmetricAutomata.changes (self : Automata) : Nat :=
  (SymmetricAutomata.nextLoop self).2

/-- The value that the `if` chain of `SymmetricAutomata.nextGeneration`
assigns to `next[i][j]`, as a function of `state` and `neighbors`. -/
def SymmetricAutomata.rule (state neighbors : Int) : Int :=
  if state = 0 ∧ neighbors = 3 then 1
  else if state = 1 ∧ (neighbors < 2 ∨ neighbors > 3) then 0
  else state

/-- The sequence `new SymmetricAutomata(...)`, `automaton.initialize()` that
`setup()` runs when it picks `SymmetricAutomata`: the class does not define
`initialize`, so the call runs `Automata.initialize`. -/
def setupSymmetric (rnd : Nat → Int) (cols rows resolution : Nat) : Automata × Nat :=
  let st := SymmetricAutomata.new rnd 0 cols rows resolution
  Automata.initialize rnd st.2 st.1

/-- A buffer of exactly `m` columns of `n` cells. -/
def Dims (g : Grid) (m n : Nat) : Prop :=
  g.length = m ∧ ∀ col ∈ g, col.length = n

instance (g : Grid) (m n : Nat) : Decidable (Dims g m n) := by
  unfold Dims; infer_instance

/-- Every cell of the buffer is `0` or `1`. -/
def Binary (g : Grid) : Prop :=
  ∀ col ∈ g, ∀ v ∈ col, v = 0 ∨ v = 1

instance (g : Grid) : Decidable (Binary g) := by
  unfold Binary; infer_instance

/-- The grid of the automaton has `cols` columns of `rows` cells, all `0` or `1`. -/
def Automata.WellFormed (self : Automata) : Prop :=
  Dims self.grid self.cols self.rows ∧ Binary self.grid

instance (self : Automata) : Decidable self.WellFormed := by
  unfold Automata.WellFormed; infer_instance

/-- Mirror symmetry: `grid[i][j] == grid[cols-1-i][j]` for all valid `(i, j)`. -/
def Mirror (self : Automata) : Prop :=
  ∀ i < self.cols, ∀ j < self.rows,
    getCell self.grid i j = getCell self.grid (self.cols - 1 - i) j

instance (self : Automata) : Decidable (Mirror self) := by
  unfold Mirror; infer_instance

/-- The pair of writes `g[i][j] = v; g[cols - i - 1][j] = g[i][j]` shared by
`initializeSymmetric` and `SymmetricAutomata.nextGeneration`. -/
def mirrorWrite (cols : Nat) (g : Grid) (i j : Nat) (v : Int) : Grid :=
  setCell (setCell g i j v) (cols - i - 1) j (getCell (setCell g i j v) i j)

/-- The increment of `changes` made by the `if` chain of
`SymmetricAutomata.nextGeneration`: 1 in the two branches with `changes++`. -/
def SymmetricAutomata.flips (state neighbors : Int) : Nat :=
  if state = 0 ∧ neighbors = 3 then 1
  else if state = 1 ∧ (neighbors < 2 ∨ neighbors > 3) then 1
  else 0

/-- The rule lists `birthRule = []`, `survivalRule = [0, ..., 8]`: no birth,
survival on every count. -/
def universalSurvival : Config :=
  { birthRule := [], survivalRule := [0, 1, 2, 3, 4, 5, 6, 7, 8] }

/-- The all-dead buffer of `cols` columns of `rows` cells. -/
def allDead (cols rows : Nat) : Grid := List.replicate cols (List.replicate rows 0)

/-- Whether index `c` of an axis of length `n` lies in `{a, (a + 1) mod n}`,
as a cell value. -/
def lineCell (n a c : Nat) : Int := if c = a ∨ c = (a + 1) % n then 1 else 0

/-- The buffer whose alive cells are exactly the 2×2 block
`{a, (a+1) mod cols} × {b, (b+1) mod rows}`. -/
def blockGrid (cols rows a b : Nat) : Grid :=
  (List.range cols).map (fun i => (List.range rows).map (fun j =>
    if (i = a ∨ i = (a + 1) % cols) ∧ (j = b ∨ j = (b + 1) % rows) then 1 else 0))

/-- Reading `grid[c][r]` with the bounds of the buffer checked: `none` when
`c` is not an index of `grid` or `r` is not an index of `grid[c]`. -/
def readCell? (grid : Grid) (c r : Int) : Option Int :=
  if 0 ≤ c ∧ c < grid.length then
    if 0 ≤ r ∧ r < (grid.getD c.toNat []).length then
      some ((grid.getD c.toNat []).getD r.toNat 0)
    else none
  else none

/-- The assignment `grid[c][r] = v` with the bounds of the buffer checked:
`none` when `c` is not an index of `grid` or `r` is not an index of `grid[c]`. -/
def writeCell? (grid : Grid) (c r : Int) (v : Int) : Option Grid :=
  if 0 ≤ c ∧ c < grid.length then
    if 0 ≤ r ∧ r < (grid.getD c.toNat []).length then
      some (grid.set c.toNat ((grid.getD c.toNat []).set r.toNat v))
    else none
  else none

/-- `Automata.countNeighbors(grid, x, y)` with every array access checked. -/
def Automata.countNeighborsChecked (self : Automata) (grid : Grid) (x y : Nat) :
    Option Int := do
  let sum ← offsets.foldlM (fun sum i =>
    offsets.foldlM (fun sum j => do
      let col := Int.tmod ((x : Int) + i + (self.cols : Int)) (self.cols : Int)
      let row := Int.tmod ((y : Int) + j + (self.rows : Int)) (self.rows : Int)
      let v ← readCell? grid col row
      pure (sum + v)) sum) 0
  let centre ← readCell? grid x y
  pure (sum - centre)

/-- `GameOfLife.nextGeneration()` with every array access checked. -/
def GameOfLife.nextGenerationChecked (cfg : Config) (self : Automata) : Option Automata := do
  let next := Automata.make2DArray self.cols self.rows
  let next ← (List.range self.cols).foldlM (fun next (i : Nat) =>
    (List.range self.rows).foldlM (fun next (j : Nat) => do
      let state ← readCell? self.grid i j
      let neighbors ← self.countNeighborsChecked self.grid i j
      if state = 0 ∧ cfg.birthRule.contains neighbors then
        writeCell? next i j 1
      else if state = 1 ∧ ¬ cfg.survivalRule.contains neighbors then
        writeCell? next i j 0
      else
        writeCell? next i j state) next) next
  pure { self with grid := next }

/-- `SymmetricAutomata.countNeighbors(grid, x, y)` with every array access
checked. -/
def SymmetricAutomata.countNeighborsChecked (self : Automata) (grid : Grid) (x y : Nat) :
    Option Int := do
  let sum ← offsets.foldlM (fun sum i =>
    offsets.foldlM (fun sum j => do
      let col := Int.tmod ((x : Int) + i + (self.cols : Int)) (self.cols : Int)
      let row := Int.tmod ((y : Int) + j + (self.rows : Int)) (self.rows : Int)
      let v ← readCell? grid col row
      pure (sum + v)) sum) 0
  let centre ← readCell? grid x y
  pure (sum - centre)

/-- `SymmetricAutomata.nextGeneration()` with every array access checked: the
automaton after `this.grid = next` and the logged value of `changes`. -/
def SymmetricAutomata.nextGenerationChecked (self : Automata) : Option (Automata × Nat) := do
  let next := Automata.make2DArray self.cols self.rows
  let changes := 0
  let st ← (List.range (halfCols self.cols)).foldlM (fun st (i : Nat) =>
    (List.range self.rows).foldlM (fun (st : Grid × Nat) (j : Nat) => do
      let state ← readCell? self.grid i j
      let neighbors ← SymmetricAutomata.countNeighborsChecked self self.grid i j
      let st1 : Grid × Nat ←
        if state = 0 ∧ neighbors = 3 then
          (writeCell? st.1 i j 1).map (fun g => (g, st.2 + 1))
        else if state = 1 ∧ (neighbors < 2 ∨ neighbors > 3) then
          (writeCell? st.1 i j 0).map (fun g => (g, st.2 + 1))
        else
          (writeCell? st.1 i j state).map (fun g => (g, st.2))
      let v ← readCell? st1.1 i j
      let g ← writeCell? st1.1 ((self.cols : Int) - i - 1) j v
      pure (g, st1.2)) st) (next, changes)
  pure ({ self with grid := st.1 }, st.2)

/-- The exceptions of the sketch and of the array allocations it makes. -/
inductive JsError where
  /-- `RangeError: Invalid array length`, thrown by `new Array(n)` for `n < 0`
  and for `n ≥ 2^32`. -/
  | rangeError
  /-- `throw new Error(message)`. -/
  | error (message : String)
deriving DecidableEq, Repr

/-- `new Array(n)` for an integer `n`: an array of length `n` when `n` is an
array length, `0 ≤ n < 2^32`, and a `RangeError` otherwise. -/
def newArray (n : Int) : Except JsError Nat :=
  if n < 0 ∨ 4294967296 ≤ n then Except.error JsError.rangeError else Except.ok n.toNat

/-- The fields of an `Automata` as the constructor stores them, for integer
arguments of any sign. -/
structure RawAutomata where
  cols : Int
  rows : Int
  resolution : Nat
  grid : Grid
deriving DecidableEq, Repr

/-- `Automata.make2DArray(cols, rows)` for integer arguments of any sign:
`new Array(cols)`, then one `new Array(rows).fill(0)` per index `i < cols`. -/
def Automata.make2DArrayRaw (cols rows : Int) : Except JsError Grid := do
  let len ← newArray cols
  (List.range len).foldlM (fun arr _ => do
    let n ← newArray rows
    pure (arr ++ [List.replicate n 0])) []

/-- The constructor of `Automata` for integer arguments of any sign: it
stores its arguments and allocates the grid, and tests nothing. -/
def Automata.construct (cols rows : Int) (resolution : Nat) : Except JsError RawAutomata := do
  let grid ← Automata.make2DArrayRaw cols rows
  pure { cols := cols, rows := rows, resolution := resolution, grid := grid }

/-- `Automata.nextGeneration()` of the base class: the `throw`, and the
automaton as the call leaves it. -/
def Automata.nextGeneration (self : Automata) : Except JsError Unit × Automata :=
  (Except.error (JsError.error "nextGeneration function should be implemented by subclasses"),
    self)

/-- The body of `draw()` on the two variables it assigns: the automaton,
through its method `nextGeneration`, and `frameCount`. The calls `background`,
`frame.display` and `automaton.display` paint the canvas and assign neither. -/
def draw {σ : Type} (nextGeneration : σ → σ) (st : σ × Nat) : σ × Nat :=
  let automaton := st.1
  let frameCount := st.2
  let automaton := nextGeneration automaton
  let automaton := if frameCount % 20 = 0 then nextGeneration automaton else automaton
  (automaton, frameCount + 1)

/-- A 5×5 grid holding the three alive cells `(2,1)`, `(2,2)`, `(2,3)`. -/
def blinker : Automata :=
  { cols := 5, rows := 5, resolution := 10,
    grid := [[0, 0, 0, 0, 0], [0, 0, 0, 0, 0], [0, 1, 1, 1, 0], [0, 0, 0, 0, 0],
      [0, 0, 0, 0, 0]] }

/-- The index `(i + a) mod n` of a shift by `a` along an axis of length `n`. -/
def shiftIndex (n : Nat) (a : Int) (i : Nat) : Nat :=
  (((i : Int) + a) % (n : Int)).toNat

/-- The shifted buffer: `shift(g)[i][j] = g[(i+a) mod cols][(j+b) mod rows]`. -/
def shiftGrid (cols rows : Nat) (a b : Int) (g : Grid) : Grid :=
  (List.range cols).map (fun i => (List.range rows).map (fun j =>
    getCell g (shiftIndex cols a i) (shiftIndex rows b j)))

/-! ## Buffers: allocation, reads and writes -/

theorem make2DArray_eq (m n : Nat) :
    Automata.make2DArray m n = List.replicate m (List.replicate n 0) := by
  unfold Automata.make2DArray
  induction m with
  | zero => rfl
  | succ k ih =>
    rw [List.range_succ, List.foldl_append, ih]
    simp [List.replicate_succ']

theorem dims_make2DArray (m n : Nat) : Dims (Automata.make2DArray m n) m n := by
  rw [make2DArray_eq]
  refine ⟨by simp, ?_⟩
  intro col hcol
  rw [List.eq_of_mem_replicate hcol]
  simp

theorem getCell_make2DArray (m n c r : Nat) :
    getCell (Automata.make2DArray m n) c r = 0 := by
  rw [make2DArray_eq]
  simp only [getCell, List.getD_eq_getElem?_getD, List.getElem?_replicate]
  by_cases hc : c < m
  · by_cases hr : r < n <;> simp [hc, hr, List.getElem?_replicate]
  · simp [hc]

theorem dims_column {g : Grid} {m n : Nat} (hd : Dims g m n) {c : Nat} (hc : c < m) :
    (g.getD c []).length = n := by
  have hlt : c < g.length := by rw [hd.1]; exact hc
  rw [List.getD_eq_getElem?_getD, List.getElem?_eq_getElem hlt]
  exact hd.2 _ (List.getElem_mem hlt)

theorem set_of_length_le {α : Type} (l : List α) (c : Nat) (x : α) (h : l.length ≤ c) :
    l.set c x = l := by
  apply List.ext_getElem?
  intro k
  rw [List.getElem?_set]
  by_cases hk : c = k
  · subst hk
    simp [List.getElem?_eq_none h, Nat.not_lt.mpr h]
  · simp [hk]

theorem dims_setCell {g : Grid} {m n : Nat} (hd : Dims g m n) (c r : Nat) (v : Int) :
    Dims (setCell g c r v) m n := by
  refine ⟨by simp [setCell, hd.1], ?_⟩
  intro col hcol
  by_cases hc : c < m
  · rcases List.mem_or_eq_of_mem_set hcol with h | h
    · exact hd.2 col h
    · rw [h, List.length_set]
      exact dims_column hd hc
  · have hle : g.length ≤ c := by rw [hd.1]; omega
    unfold setCell at hcol
    rw [set_of_length_le g c _ hle] at hcol
    exact hd.2 col hcol

theorem getCell_setCell {g : Grid} {m n : Nat} (hd : Dims g m n) (c r : Nat) (v : Int)
    (c' r' : Nat) :
    getCell (setCell g c r v) c' r' =
      if c' = c ∧ r' = r ∧ c < m ∧ r < n then v else getCell g c' r' := by
  unfold getCell setCell
  simp only [List.getD_eq_getElem?_getD, List.getElem?_set]
  by_cases hcc : c = c'
  · subst hcc
    by_cases hc : c < m
    · have hlen : c < g.length := by rw [hd.1]; exact hc
      have hcol := dims_column hd hc
      rw [List.getD_eq_getElem?_getD] at hcol
      simp only [hlen, hc, if_true, Option.getD_some, List.getElem?_set, true_and]
      by_cases hrr : r = r'
      · subst hrr
        by_cases hr : r < n
        · simp [hcol, hr]
        · have hnone : (g[c]?.getD [])[r]? = none :=
            List.getElem?_eq_none (by rw [hcol]; omega)
          simp [hcol, hr, hnone]
      · have : ¬ r' = r := fun h => hrr h.symm
        simp [hrr, this]
    · have hlen : ¬ c < g.length := by rw [hd.1]; exact hc
      have hnone : g[c]? = none := List.getElem?_eq_none (by omega)
      simp [hlen, hc, hnone]
  · have : ¬ c' = c := fun h => hcc h.symm
    simp [hcc, this]

/-- An invariant of a `for` loop over `0 .. n-1`. -/
theorem foldl_range_inv {σ : Type} (P : Nat → σ → Prop) (f : σ → Nat → σ) (s0 : σ) (n : Nat)
    (h0 : P 0 s0) (hstep : ∀ k, k < n → ∀ s, P k s → P (k + 1) (f s k)) :
    P n ((List.range n).foldl f s0) := by
  induction n with
  | zero => simpa using h0
  | succ k ih =>
    rw [List.range_succ, List.foldl_append]
    simp only [List.foldl_cons, List.foldl_nil]
    exact hstep k (Nat.lt_succ_self k) _
      (ih (fun j hj s hs => hstep j (Nat.lt_succ_of_lt hj) s hs))

/-! ## Neighbour counting -/

theorem wrapIndex_eq (x n : Nat) (d : Int) (hn : 1 ≤ n) (hd : -1 ≤ d) :
    wrapIndex x d n = (((x : Int) + d) % (n : Int)).toNat := by
  unfold wrapIndex
  rw [Int.tmod_eq_emod (by omega) (by omega), Int.add_emod_self]

theorem wrapIndex_zero (x n : Nat) (hx : x < n) : wrapIndex x 0 n = x := by
  rw [wrapIndex_eq x n 0 (by omega) (by omega)]
  have h : ((x : Int) + 0) % (n : Int) = (x : Int) := by
    rw [Int.add_zero]
    exact Int.emod_eq_of_lt (by omega) (by omega)
  rw [h, Int.toNat_ofNat]

theorem wrapIndex_lt (x n : Nat) (d : Int) (hn : 1 ≤ n) (hd : -1 ≤ d) :
    wrapIndex x d n < n := by
  rw [wrapIndex_eq x n d hn hd]
  have h1 : 0 ≤ ((x : Int) + d) % (n : Int) := Int.emod_nonneg _ (by omega)
  have h2 : ((x : Int) + d) % (n : Int) < (n : Int) := Int.emod_lt_of_pos _ (by omega)
  omega

/-- The nine reads of `countNeighbors`, in the order the loops make them. -/
theorem countNeighbors_unfold (self : Automata) (grid : Grid) (x y : Nat) :
    self.countNeighbors grid x y =
      0 + getCell grid (wrapIndex x (-1) self.cols) (wrapIndex y (-1) self.rows)
        + getCell grid (wrapIndex x (-1) self.cols) (wrapIndex y 0 self.rows)
        + getCell grid (wrapIndex x (-1) self.cols) (wrapIndex y 1 self.rows)
        + getCell grid (wrapIndex x 0 self.cols) (wrapIndex y (-1) self.rows)
        + getCell grid (wrapIndex x 0 self.cols) (wrapIndex y 0 self.rows)
        + getCell grid (wrapIndex x 0 self.cols) (wrapIndex y 1 self.rows)
        + getCell grid (wrapIndex x 1 self.cols) (wrapIndex y (-1) self.rows)
        + getCell grid (wrapIndex x 1 self.cols) (wrapIndex y 0 self.rows)
        + getCell grid (wrapIndex x 1 self.cols) (wrapIndex y 1 self.rows)
        - getCell grid x y := rfl

theorem symmetric_countNeighbors_eq (self : Automata) (grid : Grid) (x y : Nat) :
    SymmetricAutomata.countNeighbors self grid x y = self.countNeighbors grid x y := rfl

/-- The count is the sum of the eight wrapped neighbours. -/
theorem countNeighbors_eight (self : Automata) (grid : Grid) (x y : Nat)
    (hx : x < self.cols) (hy : y < self.rows) :
    self.countNeighbors grid x y =
      getCell grid (wrapIndex x (-1) self.cols) (wrapIndex y (-1) self.rows)
        + getCell grid (wrapIndex x (-1) self.cols) y
        + getCell grid (wrapIndex x (-1) self.cols) (wrapIndex y 1 self.rows)
        + getCell grid x (wrapIndex y (-1) self.rows)
        + getCell grid x (wrapIndex y 1 self.rows)
        + getCell grid (wrapIndex x 1 self.cols) (wrapIndex y (-1) self.rows)
        + getCell grid (wrapIndex x 1 self.cols) y
        + getCell grid (wrapIndex x 1 self.cols) (wrapIndex y 1 self.rows) := by
  rw [countNeighbors_unfold, wrapIndex_zero x _ hx, wrapIndex_zero y _ hy]
  ring

theorem getCell_binary {g : Grid} (hb : Binary g) (c r : Nat) :
    getCell g c r = 0 ∨ getCell g c r = 1 := by
  unfold getCell
  simp only [List.getD_eq_getElem?_getD]
  by_cases hc : c < g.length
  · rw [List.getElem?_eq_getElem hc, Option.getD_some]
    by_cases hr : r < g[c].length
    · rw [List.getElem?_eq_getElem hr, Option.getD_some]
      exact hb _ (List.getElem_mem hc) _ (List.getElem_mem hr)
    · have hnone : g[c][r]? = none := List.getElem?_eq_none (by omega)
      rw [hnone]
      exact Or.inl rfl
  · have hnone : g[c]? = none := List.getElem?_eq_none (by omega)
    rw [hnone]
    exact Or.inl rfl

/-- C2. For a grid with `cols ≥ 1`, `rows ≥ 1` and a valid `(x, y)`,
`countNeighbors(grid, x, y)` is the sum, over the eight offsets `(dx, dy)` of
`{-1,0,1}²` other than `(0,0)`, of `grid[(x+dx) mod cols][(y+dy) mod rows]`;
equally, it is the wrapped 3×3 block sum minus the centre cell. -/
theorem countNeighbors_wrapped_sum (self : Automata) (grid : Grid) (x y : Nat)
    (hcols : 1 ≤ self.cols) (hrows : 1 ≤ self.rows)
    (hx : x < self.cols) (hy : y < self.rows) :
    self.countNeighbors grid x y =
        (([(-1, -1), (-1, 0), (-1, 1), (0, -1), (0, 1), (1, -1), (1, 0), (1, 1)] :
            List (Int × Int)).map (fun d =>
          getCell grid (((x : Int) + d.1) % (self.cols : Int)).toNat
            (((y : Int) + d.2) % (self.rows : Int)).toNat)).sum
      ∧ self.countNeighbors grid x y =
        (([(-1, -1), (-1, 0), (-1, 1), (0, -1), (0, 0), (0, 1), (1, -1), (1, 0), (1, 1)] :
            List (Int × Int)).map (fun d =>
          getCell grid (((x : Int) + d.1) % (self.cols : Int)).toNat
            (((y : Int) + d.2) % (self.rows : Int)).toNat)).sum - getCell grid x y := by
  have e1 := wrapIndex_eq x self.cols (-1) hcols (by omega)
  have e2 := wrapIndex_eq x self.cols 0 hcols (by omega)
  have e3 := wrapIndex_eq x self.cols 1 hcols (by omega)
  have f1 := wrapIndex_eq y self.rows (-1) hrows (by omega)
  have f2 := wrapIndex_eq y self.rows 0 hrows (by omega)
  have f3 := wrapIndex_eq y self.rows 1 hrows (by omega)
  have e0 := wrapIndex_zero x _ hx
  have f0 := wrapIndex_zero y _ hy
  constructor
  · rw [countNeighbors_eight self grid x y hx hy]
    simp only [List.map_cons, List.map_nil, List.sum_cons, List.sum_nil]
    rw [← e1, ← e2, ← e3, ← f1, ← f2, ← f3, e0, f0]
    ring
  · rw [countNeighbors_unfold]
    simp only [List.map_cons, List.map_nil, List.sum_cons, List.sum_nil]
    rw [← e1, ← e2, ← e3, ← f1, ← f2, ← f3]
    ring

/-- C2, on the 3×3 grid whose only alive cell is `(0,0)`: the count at `(2,2)` is 1. -/
theorem countNeighbors_wrapped_sum_witness :
    (Automata.mk 3 3 10 [[1, 0, 0], [0, 0, 0], [0, 0, 0]]).countNeighbors
        [[1, 0, 0], [0, 0, 0], [0, 0, 0]] 2 2 = 1 ∧
    (Automata.mk 3 3 10 [[1, 0, 0], [0, 0, 0], [0, 0, 0]]).countNeighbors
        [[1, 0, 0], [0, 0, 0], [0, 0, 0]] 2 2 =
      (([(-1, -1), (-1, 0), (-1, 1), (0, -1), (0, 1), (1, -1), (1, 0), (1, 1)] :
            List (Int × Int)).map (fun d =>
          getCell [[1, 0, 0], [0, 0, 0], [0, 0, 0]] (((2 : Nat) + d.1) % ((3 : Nat) : Int)).toNat
            ((((2 : Nat) : Int) + d.2) % ((3 : Nat) : Int)).toNat)).sum :=
  ⟨by decide,
   (countNeighbors_wrapped_sum (Automata.mk 3 3 10 [[1, 0, 0], [0, 0, 0], [0, 0, 0]])
      [[1, 0, 0], [0, 0, 0], [0, 0, 0]] 2 2 (by decide) (by decide) (by decide) (by decide)).1⟩

/-- The count of a grid of `0`/`1` cells is a sum of eight values `0` or `1`. -/
theorem countNeighbors_bounds (self : Automata) (grid : Grid) (x y : Nat)
    (hbin : Binary grid) (hx : x < self.cols) (hy : y < self.rows) :
    0 ≤ self.countNeighbors grid x y ∧ self.countNeighbors grid x y ≤ 8 := by
  rw [countNeighbors_eight self grid x y hx hy]
  have h := getCell_binary hbin
  rcases h (wrapIndex x (-1) self.cols) (wrapIndex y (-1) self.rows) with a | a <;>
  rcases h (wrapIndex x (-1) self.cols) y with b | b <;>
  rcases h (wrapIndex x (-1) self.cols) (wrapIndex y 1 self.rows) with c | c <;>
  rcases h x (wrapIndex y (-1) self.rows) with d | d <;>
  rcases h x (wrapIndex y 1 self.rows) with e | e <;>
  rcases h (wrapIndex x 1 self.cols) (wrapIndex y (-1) self.rows) with f | f <;>
  rcases h (wrapIndex x 1 self.cols) y with g | g <;>
  rcases h (wrapIndex x 1 self.cols) (wrapIndex y 1 self.rows) with k | k <;>
  omega

/-- C3. On a grid whose cells are all `0` or `1` and at a valid `(x, y)`
(so `cols ≥ 1` and `rows ≥ 1`, the sizes 1 and 2 included),
`countNeighbors(grid, x, y)` is an integer between 0 and 8. -/
theorem countNeighbors_range (self : Automata) (grid : Grid) (x y : Nat)
    (hbin : Binary grid) (hx : x < self.cols) (hy : y < self.rows) :
    0 ≤ self.countNeighbors grid x y ∧ self.countNeighbors grid x y ≤ 8 :=
  countNeighbors_bounds self grid x y hbin hx hy

/-- C3 on the 1×1 grid holding an alive cell: every wrapped offset lands on
the cell itself, and the count is 8. -/
theorem countNeighbors_range_witness :
    (Automata.mk 1 1 10 [[1]]).countNeighbors [[1]] 0 0 = 8 ∧
    0 ≤ (Automata.mk 1 1 10 [[1]]).countNeighbors [[1]] 0 0 ∧
    (Automata.mk 1 1 10 [[1]]).countNeighbors [[1]] 0 0 ≤ 8 :=
  ⟨by decide, countNeighbors_range (Automata.mk 1 1 10 [[1]]) [[1]] 0 0
    (by decide) (by decide) (by decide)⟩

/-! ## The loops that fill a buffer -/

/-- The inner loop `for (j ...) next[i][j] = f j` writes column `i`. -/
theorem fill_rows (f : Nat → Int) (i : Nat) (g0 : Grid) (m n : Nat) (hd : Dims g0 m n)
    (k : Nat) :
    Dims ((List.range k).foldl (fun g j => setCell g i j (f j)) g0) m n ∧
    ∀ c r, getCell ((List.range k).foldl (fun g j => setCell g i j (f j)) g0) c r =
      if c = i ∧ r < k ∧ i < m ∧ r < n then f r else getCell g0 c r := by
  refine foldl_range_inv
    (fun k g => Dims g m n ∧ ∀ c r, getCell g c r =
      if c = i ∧ r < k ∧ i < m ∧ r < n then f r else getCell g0 c r)
    _ g0 k ⟨hd, fun c r => by simp⟩ ?_
  intro j _ g hg
  refine ⟨dims_setCell hg.1 i j (f j), ?_⟩
  intro c r
  rw [getCell_setCell hg.1, hg.2 c r]
  by_cases h1 : c = i
  · by_cases h2 : r = j
    · subst h1; subst h2
      by_cases h3 : c < m
      · by_cases h4 : r < n <;> simp [h3, h4]
      · simp [h3]
    · have h5 : r < j + 1 ↔ r < j := by omega
      simp [h1, h2, h5]
  · simp [h1]

/-- The nested loops `for (i ...) for (j ...) next[i][j] = f i j`. -/
theorem fill_grid (f : Nat → Nat → Int) (g0 : Grid) (m n : Nat) (hd : Dims g0 m n)
    (k rows : Nat) :
    Dims ((List.range k).foldl (fun g i =>
        (List.range rows).foldl (fun g j => setCell g i j (f i j)) g) g0) m n ∧
    ∀ c r, getCell ((List.range k).foldl (fun g i =>
        (List.range rows).foldl (fun g j => setCell g i j (f i j)) g) g0) c r =
      if c < k ∧ r < rows ∧ c < m ∧ r < n then f c r else getCell g0 c r := by
  refine foldl_range_inv
    (fun k g => Dims g m n ∧ ∀ c r, getCell g c r =
      if c < k ∧ r < rows ∧ c < m ∧ r < n then f c r else getCell g0 c r)
    _ g0 k ⟨hd, fun c r => by simp⟩ ?_
  intro i _ g hg
  have h := fill_rows (f i) i g m n hg.1 rows
  refine ⟨h.1, ?_⟩
  intro c r
  rw [h.2 c r, hg.2 c r]
  by_cases h1 : c = i
  · subst h1
    simp
  · have h5 : c < i + 1 ↔ c < i := by omega
    simp [h1, h5]

/-- Two buffers of the same dimensions with the same cells are equal. -/
theorem grid_ext {g1 g2 : Grid} {m n : Nat} (h1 : Dims g1 m n) (h2 : Dims g2 m n)
    (h : ∀ c < m, ∀ r < n, getCell g1 c r = getCell g2 c r) : g1 = g2 := by
  apply List.ext_getElem (by rw [h1.1, h2.1])
  intro c hc1 hc2
  have hcm : c < m := by rw [← h1.1]; exact hc1
  have l1 : g1[c].length = n := h1.2 _ (List.getElem_mem hc1)
  have l2 : g2[c].length = n := h2.2 _ (List.getElem_mem hc2)
  apply List.ext_getElem (by rw [l1, l2])
  intro r hr1 hr2
  have hrn : r < n := by rw [← l1]; exact hr1
  have := h c hcm r hrn
  simpa [getCell, List.getD_eq_getElem?_getD, List.getElem?_eq_getElem hc1,
    List.getElem?_eq_getElem hc2, List.getElem?_eq_getElem hr1,
    List.getElem?_eq_getElem hr2] using this

/-! ## `GameOfLife.nextGeneration` -/

theorem gol_nextGeneration_eq (cfg : Config) (self : Automata) :
    (GameOfLife.nextGeneration cfg self).grid =
      (List.range self.cols).foldl (fun g i =>
        (List.range self.rows).foldl (fun g j =>
          setCell g i j (GameOfLife.rule cfg (getCell self.grid i j)
            (self.countNeighbors self.grid i j))) g)
        (Automata.make2DArray self.cols self.rows) := by
  unfold GameOfLife.nextGeneration
  simp only
  congr 1
  funext g i
  congr 1
  funext g j
  unfold GameOfLife.rule
  split_ifs <;> rfl

theorem gol_dims (cfg : Config) (self : Automata) :
    Dims (GameOfLife.nextGeneration cfg self).grid self.cols self.rows := by
  rw [gol_nextGeneration_eq]
  exact (fill_grid _ _ _ _ (dims_make2DArray _ _) _ _).1

theorem gol_getCell (cfg : Config) (self : Automata) (i j : Nat)
    (hi : i < self.cols) (hj : j < self.rows) :
    getCell (GameOfLife.nextGeneration cfg self).grid i j =
      GameOfLife.rule cfg (getCell self.grid i j) (self.countNeighbors self.grid i j) := by
  rw [gol_nextGeneration_eq, (fill_grid _ _ _ _ (dims_make2DArray _ _) _ _).2 i j]
  simp [hi, hj]

theorem gol_fields (cfg : Config) (self : Automata) :
    (GameOfLife.nextGeneration cfg self).cols = self.cols ∧
    (GameOfLife.nextGeneration cfg self).rows = self.rows := ⟨rfl, rfl⟩

/-- C4. `GameOfLife.nextGeneration` replaces the grid by a grid `next` such
that, for every valid cell `(i, j)`, with `s = grid[i][j]` and
`n = countNeighbors(grid, i, j)` taken on the old grid: `next[i][j] = 1` when
`s = 0` and `n` is in `birthRule`; `next[i][j] = 0` when `s = 1` and `n` is not
in `survivalRule`; `next[i][j] = s` otherwise. -/
theorem gol_nextGeneration_spec (cfg : Config) (self : Automata) (i j : Nat)
    (hi : i < self.cols) (hj : j < self.rows) :
    (getCell self.grid i j = 0 ∧ self.countNeighbors self.grid i j ∈ cfg.birthRule →
      getCell (GameOfLife.nextGeneration cfg self).grid i j = 1) ∧
    (getCell self.grid i j = 1 ∧ self.countNeighbors self.grid i j ∉ cfg.survivalRule →
      getCell (GameOfLife.nextGeneration cfg self).grid i j = 0) ∧
    (¬ (getCell self.grid i j = 0 ∧ self.countNeighbors self.grid i j ∈ cfg.birthRule) ∧
      ¬ (getCell self.grid i j = 1 ∧ self.countNeighbors self.grid i j ∉ cfg.survivalRule) →
      getCell (GameOfLife.nextGeneration cfg self).grid i j = getCell self.grid i j) := by
  rw [gol_getCell cfg self i j hi hj]
  unfold GameOfLife.rule
  simp only [List.contains, List.elem_iff]
  refine ⟨?_, ?_, ?_⟩
  · intro h
    rw [if_pos h]
  · intro h
    have h0 : ¬ (getCell self.grid i j = 0 ∧ self.countNeighbors self.grid i j ∈ cfg.birthRule) := by
      intro h'
      rw [h.1] at h'
      exact absurd h'.1 (by decide)
    rw [if_neg h0, if_pos h]
  · intro h
    rw [if_neg h.1, if_neg h.2]

/-! ## The mirrored loops of `SymmetricAutomata` -/

theorem halfCols_lt (cols i : Nat) : i < halfCols cols ↔ 2 * i < cols := by
  unfold halfCols
  omega

theorem mirrorWrite_spec {g : Grid} {cols rows : Nat} (hd : Dims g cols rows) (i j : Nat)
    (hi : i < cols) (v : Int) :
    Dims (mirrorWrite cols g i j v) cols rows ∧
    ∀ c r, getCell (mirrorWrite cols g i j v) c r =
      if (c = i ∨ c = cols - i - 1) ∧ r = j ∧ j < rows then v else getCell g c r := by
  unfold mirrorWrite
  have hd1 := dims_setCell hd i j v
  refine ⟨dims_setCell hd1 _ _ _, ?_⟩
  intro c r
  rw [getCell_setCell hd1, getCell_setCell hd, getCell_setCell hd]
  have hm : cols - i - 1 < cols := by omega
  by_cases hj : j < rows
  · by_cases hr : r = j
    · by_cases h1 : c = i
      · simp [h1, hr, hj, hi, hm]
      · by_cases h2 : c = cols - i - 1
        · simp [h2, hr, hj, hi, hm]
        · simp [h1, h2, hr]
    · simp [hr]
  · simp [hj]

/-- The inner loop over the rows of column `i` and of its mirror column. -/
theorem mirror_rows (cols rows : Nat) (F : Nat → Nat → Int) (W : Nat → Nat) (i : Nat)
    (hi : i < cols) (st0 : Grid × Nat) (hd : Dims st0.1 cols rows) (k : Nat) :
    Dims ((List.range k).foldl (fun (st : Grid × Nat) j =>
        (mirrorWrite cols st.1 i j (F j st.2), st.2 + W j)) st0).1 cols rows ∧
    ((List.range k).foldl (fun (st : Grid × Nat) j =>
        (mirrorWrite cols st.1 i j (F j st.2), st.2 + W j)) st0).2 =
      st0.2 + ∑ j ∈ Finset.range k, W j ∧
    ∀ c r, getCell ((List.range k).foldl (fun (st : Grid × Nat) j =>
        (mirrorWrite cols st.1 i j (F j st.2), st.2 + W j)) st0).1 c r =
      if (c = i ∨ c = cols - i - 1) ∧ r < k ∧ r < rows then
        F r (st0.2 + ∑ j ∈ Finset.range r, W j)
      else getCell st0.1 c r := by
  refine foldl_range_inv
    (fun k (st : Grid × Nat) => Dims st.1 cols rows ∧
      st.2 = st0.2 + ∑ j ∈ Finset.range k, W j ∧
      ∀ c r, getCell st.1 c r =
        if (c = i ∨ c = cols - i - 1) ∧ r < k ∧ r < rows then
          F r (st0.2 + ∑ j ∈ Finset.range r, W j)
        else getCell st0.1 c r)
    _ st0 k ⟨hd, by simp, fun c r => by simp⟩ ?_
  intro j _ st hst
  obtain ⟨h1, h2, h3⟩ := hst
  have hw := mirrorWrite_spec h1 i j hi (F j st.2)
  refine ⟨hw.1, ?_, ?_⟩
  · simp only [h2, Finset.sum_range_succ]
    omega
  · intro c r
    simp only []
    rw [hw.2 c r, h3 c r, h2]
    by_cases hc : c = i ∨ c = cols - i - 1
    · by_cases hr : r = j
      · subst hr
        by_cases hj : r < rows <;> simp [hc, hj]
      · have h5 : r < j + 1 ↔ r < j := by omega
        simp [hc, hr, h5]
    · simp [hc]

/-- The nested loops over the columns `i < k` (with `2 * i < cols`) and their
mirror columns: the buffer, and the counter threaded through the loops. -/
theorem mirror_grid (cols rows : Nat) (F : Nat → Nat → Nat → Int) (W : Nat → Nat → Nat)
    (st0 : Grid × Nat) (hd : Dims st0.1 cols rows) (k : Nat) (hk : k ≤ halfCols cols) :
    Dims ((List.range k).foldl (fun st i =>
        (List.range rows).foldl (fun (st : Grid × Nat) j =>
          (mirrorWrite cols st.1 i j (F i j st.2), st.2 + W i j)) st) st0).1 cols rows ∧
    ((List.range k).foldl (fun st i =>
        (List.range rows).foldl (fun (st : Grid × Nat) j =>
          (mirrorWrite cols st.1 i j (F i j st.2), st.2 + W i j)) st) st0).2 =
      st0.2 + ∑ i ∈ Finset.range k, ∑ j ∈ Finset.range rows, W i j ∧
    ∀ c r, getCell ((List.range k).foldl (fun st i =>
        (List.range rows).foldl (fun (st : Grid × Nat) j =>
          (mirrorWrite cols st.1 i j (F i j st.2), st.2 + W i j)) st) st0).1 c r =
      if (c < k ∨ cols - 1 - c < k) ∧ c < cols ∧ r < rows then
        F (min c (cols - 1 - c)) r
          (st0.2 + ∑ i ∈ Finset.range (min c (cols - 1 - c)), ∑ j ∈ Finset.range rows, W i j
            + ∑ j ∈ Finset.range r, W (min c (cols - 1 - c)) j)
      else getCell st0.1 c r := by
  revert hk
  refine foldl_range_inv
    (fun k (st : Grid × Nat) => k ≤ halfCols cols → (Dims st.1 cols rows ∧
      st.2 = st0.2 + ∑ i ∈ Finset.range k, ∑ j ∈ Finset.range rows, W i j ∧
      ∀ c r, getCell st.1 c r =
        if (c < k ∨ cols - 1 - c < k) ∧ c < cols ∧ r < rows then
          F (min c (cols - 1 - c)) r
            (st0.2 + ∑ i ∈ Finset.range (min c (cols - 1 - c)), ∑ j ∈ Finset.range rows, W i j
              + ∑ j ∈ Finset.range r, W (min c (cols - 1 - c)) j)
        else getCell st0.1 c r))
    _ st0 k (fun _ => ⟨hd, by simp, fun c r => by simp⟩) ?_
  intro i _ st hst hle
  have hi2 : 2 * i < cols := (halfCols_lt cols i).mp (by omega)
  obtain ⟨h1, h2, h3⟩ := hst (by omega)
  have hrow := mirror_rows cols rows (F i) (W i) i (by omega) st h1 rows
  refine ⟨hrow.1, ?_, ?_⟩
  · rw [hrow.2.1, h2, Finset.sum_range_succ]
    omega
  · intro c r
    rw [hrow.2.2 c r, h3 c r, h2]
    by_cases hc : c = i ∨ c = cols - i - 1
    · have hmin : min c (cols - 1 - c) = i := by omega
      have hcc : c < cols := by omega
      have hlt : c < i + 1 ∨ cols - 1 - c < i + 1 := by omega
      by_cases hr : r < rows
      · simp [hc, hr, hmin, hcc, hlt]
      · simp [hr]
    · have hiff : (c < i + 1 ∨ cols - 1 - c < i + 1) ∧ c < cols ↔
          (c < i ∨ cols - 1 - c < i) ∧ c < cols := by omega
      by_cases hr : r < rows
      · by_cases hq : (c < i ∨ cols - 1 - c < i) ∧ c < cols
        · have hq' := hiff.mpr hq
          simp [hc, hr, hq.1, hq.2, hq'.1]
        · have hq' : ¬ ((c < i + 1 ∨ cols - 1 - c < i + 1) ∧ c < cols) := fun h => hq (hiff.mp h)
          simp only [hc, false_and, if_false]
          rw [if_neg (fun h => hq ⟨h.1, h.2.1⟩), if_neg (fun h => hq' ⟨h.1, h.2.1⟩)]
      · simp [hr]

/-! ## `SymmetricAutomata.nextGeneration` -/

theorem symmetric_nextLoop_eq (self : Automata) :
    SymmetricAutomata.nextLoop self =
      (List.range (halfCols self.cols)).foldl (fun st i =>
        (List.range self.rows).foldl (fun (st : Grid × Nat) j =>
          (mirrorWrite self.cols st.1 i j
              ((fun i j (_ : Nat) => SymmetricAutomata.rule (getCell self.grid i j)
                (SymmetricAutomata.countNeighbors self self.grid i j)) i j st.2),
            st.2 + (fun i j => SymmetricAutomata.flips (getCell self.grid i j)
                (SymmetricAutomata.countNeighbors self self.grid i j)) i j)) st)
        (Automata.make2DArray self.cols self.rows, 0) := by
  unfold SymmetricAutomata.nextLoop
  simp only
  congr 1
  funext st i
  congr 1
  funext st j
  unfold SymmetricAutomata.rule SymmetricAutomata.flips mirrorWrite
  split_ifs <;> rfl

theorem symmetric_nextLoop_facts (self : Automata) :
    Dims (SymmetricAutomata.nextLoop self).1 self.cols self.rows ∧
    (SymmetricAutomata.nextLoop self).2 =
      0 + ∑ i ∈ Finset.range (halfCols self.cols), ∑ j ∈ Finset.range self.rows,
        SymmetricAutomata.flips (getCell self.grid i j)
          (SymmetricAutomata.countNeighbors self self.grid i j) ∧
    ∀ c r, getCell (SymmetricAutomata.nextLoop self).1 c r =
      if (c < halfCols self.cols ∨ self.cols - 1 - c < halfCols self.cols) ∧
          c < self.cols ∧ r < self.rows then
        SymmetricAutomata.rule (getCell self.grid (min c (self.cols - 1 - c)) r)
          (SymmetricAutomata.countNeighbors self self.grid (min c (self.cols - 1 - c)) r)
      else getCell (Automata.make2DArray self.cols self.rows) c r := by
  rw [symmetric_nextLoop_eq]
  exact mirror_grid self.cols self.rows
    (fun i j _ => SymmetricAutomata.rule (getCell self.grid i j)
      (SymmetricAutomata.countNeighbors self self.grid i j))
    (fun i j => SymmetricAutomata.flips (getCell self.grid i j)
      (SymmetricAutomata.countNeighbors self self.grid i j))
    (Automata.make2DArray self.cols self.rows, 0) (dims_make2DArray _ _)
    (halfCols self.cols) (le_refl _)

theorem symmetric_dims (self : Automata) :
    Dims (SymmetricAutomata.nextGeneration self).grid self.cols self.rows :=
  (symmetric_nextLoop_facts self).1

theorem symmetric_getCell (self : Automata) (c r : Nat)
    (hc : c < self.cols) (hr : r < self.rows) :
    getCell (SymmetricAutomata.nextGeneration self).grid c r =
      SymmetricAutomata.rule (getCell self.grid (min c (self.cols - 1 - c)) r)
        (SymmetricAutomata.countNeighbors self self.grid (min c (self.cols - 1 - c)) r) := by
  show getCell (SymmetricAutomata.nextLoop self).1 c r = _
  rw [(symmetric_nextLoop_facts self).2.2 c r]
  have h : c < halfCols self.cols ∨ self.cols - 1 - c < halfCols self.cols := by
    unfold halfCols
    omega
  simp [h, hc, hr]

theorem symmetric_changes_sum (self : Automata) :
    SymmetricAutomata.changes self =
      ∑ i ∈ Finset.range (halfCols self.cols), ∑ j ∈ Finset.range self.rows,
        SymmetricAutomata.flips (getCell self.grid i j)
          (SymmetricAutomata.countNeighbors self self.grid i j) := by
  show (SymmetricAutomata.nextLoop self).2 = _
  rw [(symmetric_nextLoop_facts self).2.1, Nat.zero_add]

theorem symmetric_mirror (self : Automata) : Mirror (SymmetricAutomata.nextGeneration self) := by
  intro i hi j hj
  have hi' : i < self.cols := hi
  have hj' : j < self.rows := hj
  show getCell (SymmetricAutomata.nextGeneration self).grid i j =
    getCell (SymmetricAutomata.nextGeneration self).grid (self.cols - 1 - i) j
  rw [symmetric_getCell self i j hi' hj',
    symmetric_getCell self (self.cols - 1 - i) j (by omega) hj']
  have h : min (self.cols - 1 - i) (self.cols - 1 - (self.cols - 1 - i)) =
      min i (self.cols - 1 - i) := by omega
  rw [h]

theorem flips_eq (s n : Int) :
    SymmetricAutomata.flips s n = if s ≠ SymmetricAutomata.rule s n then 1 else 0 := by
  unfold SymmetricAutomata.flips SymmetricAutomata.rule
  split_ifs <;> simp_all

/-- C5. `SymmetricAutomata.nextGeneration` produces `next` such that, for
every column `i` with `i < cols / 2` (exact quotient: `2 * i < cols`) and every
row `j`, with `s = grid[i][j]`, `n = countNeighbors(grid, i, j)` and `v` the
value `1` if `s = 0` and `n = 3`, `0` if `s = 1` and (`n < 2` or `n > 3`), `s`
otherwise: `next[i][j] = v` and `next[cols-1-i][j] = v`. Consequently every
cell `(c, r)` of `next`, the middle column of an odd `cols` included, is the
rule applied to column `min(c, cols-1-c)` of the old grid. -/
theorem symmetric_nextGeneration_spec (self : Automata) :
    (∀ i j, 2 * i < self.cols → j < self.rows →
      getCell (SymmetricAutomata.nextGeneration self).grid i j =
          (if getCell self.grid i j = 0 ∧
              SymmetricAutomata.countNeighbors self self.grid i j = 3 then 1
            else if getCell self.grid i j = 1 ∧
              (SymmetricAutomata.countNeighbors self self.grid i j < 2 ∨
                SymmetricAutomata.countNeighbors self self.grid i j > 3) then 0
            else getCell self.grid i j) ∧
      getCell (SymmetricAutomata.nextGeneration self).grid (self.cols - 1 - i) j =
          (if getCell self.grid i j = 0 ∧
              SymmetricAutomata.countNeighbors self self.grid i j = 3 then 1
            else if getCell self.grid i j = 1 ∧
              (SymmetricAutomata.countNeighbors self self.grid i j < 2 ∨
                SymmetricAutomata.countNeighbors self self.grid i j > 3) then 0
            else getCell self.grid i j)) ∧
    (∀ c r, c < self.cols → r < self.rows →
      getCell (SymmetricAutomata.nextGeneration self).grid c r =
        (if getCell self.grid (min c (self.cols - 1 - c)) r = 0 ∧
            SymmetricAutomata.countNeighbors self self.grid (min c (self.cols - 1 - c)) r = 3
          then 1
          else if getCell self.grid (min c (self.cols - 1 - c)) r = 1 ∧
            (SymmetricAutomata.countNeighbors self self.grid (min c (self.cols - 1 - c)) r < 2 ∨
              SymmetricAutomata.countNeighbors self self.grid (min c (self.cols - 1 - c)) r > 3)
          then 0
          else getCell self.grid (min c (self.cols - 1 - c)) r)) := by
  refine ⟨?_, ?_⟩
  · intro i j hi hj
    have h1 : min i (self.cols - 1 - i) = i := by omega
    have h2 : min (self.cols - 1 - i) (self.cols - 1 - (self.cols - 1 - i)) = i := by omega
    refine ⟨?_, ?_⟩
    · rw [symmetric_getCell self i j (by omega) hj, h1]
      rfl
    · rw [symmetric_getCell self (self.cols - 1 - i) j (by omega) hj, h2]
      rfl
  · intro c r hc hr
    rw [symmetric_getCell self c r hc hr]
    rfl

/-- C6. The value `changes` reported by one `SymmetricAutomata.nextGeneration`
call is the number of coordinates `(i, j)` with `i < cols / 2` (exact
quotient: `2 * i < cols`) and `j < rows` such that `grid[i][j] != next[i][j]`;
the mirrored writes to column `cols-1-i` are not counted. -/
theorem symmetric_changes_exact (self : Automata) :
    SymmetricAutomata.changes self =
      ((Finset.range self.cols ×ˢ Finset.range self.rows).filter (fun p =>
        2 * p.1 < self.cols ∧
        getCell self.grid p.1 p.2 ≠
          getCell (SymmetricAutomata.nextGeneration self).grid p.1 p.2)).card := by
  have hset : (Finset.range self.cols ×ˢ Finset.range self.rows).filter (fun p =>
        2 * p.1 < self.cols ∧
        getCell self.grid p.1 p.2 ≠
          getCell (SymmetricAutomata.nextGeneration self).grid p.1 p.2) =
      (Finset.range (halfCols self.cols) ×ˢ Finset.range self.rows).filter (fun p =>
        getCell self.grid p.1 p.2 ≠
          getCell (SymmetricAutomata.nextGeneration self).grid p.1 p.2) := by
    ext p
    simp only [Finset.mem_filter, Finset.mem_product, Finset.mem_range, halfCols_lt]
    constructor
    · rintro ⟨⟨_, h2⟩, h3, h4⟩
      exact ⟨⟨h3, h2⟩, h4⟩
    · rintro ⟨⟨h1, h2⟩, h4⟩
      exact ⟨⟨by omega, h2⟩, h1, h4⟩
  rw [hset, Finset.card_filter, Finset.sum_product, symmetric_changes_sum]
  apply Finset.sum_congr rfl
  intro i hi
  apply Finset.sum_congr rfl
  intro j hj
  have hi2 : 2 * i < self.cols := (halfCols_lt _ _).mp (Finset.mem_range.mp hi)
  have hj2 : j < self.rows := Finset.mem_range.mp hj
  have h1 : min i (self.cols - 1 - i) = i := by omega
  simp only []
  rw [symmetric_getCell self i j (by omega) hj2, h1, flips_eq]

/-! ## Construction of a `SymmetricAutomata` and the mirror invariant -/

theorem initializeSymmetric_facts (rnd : Nat → Int) (k : Nat) (self : Automata)
    (hd : Dims self.grid self.cols self.rows) :
    Dims (SymmetricAutomata.initializeSymmetric rnd k self).1.grid self.cols self.rows ∧
    (SymmetricAutomata.initializeSymmetric rnd k self).2 =
      k + ∑ _i ∈ Finset.range (halfCols self.cols), ∑ _j ∈ Finset.range self.rows, 1 ∧
    ∀ c r, getCell (SymmetricAutomata.initializeSymmetric rnd k self).1.grid c r =
      if (c < halfCols self.cols ∨ self.cols - 1 - c < halfCols self.cols) ∧
          c < self.cols ∧ r < self.rows then
        rnd (k + ∑ _i ∈ Finset.range (min c (self.cols - 1 - c)),
            ∑ _j ∈ Finset.range self.rows, 1 + ∑ _j ∈ Finset.range r, 1)
      else getCell self.grid c r :=
  mirror_grid self.cols self.rows (fun _ _ s => rnd s) (fun _ _ => 1) (self.grid, k) hd
    (halfCols self.cols) (le_refl _)

theorem initializeSymmetric_mirror (rnd : Nat → Int) (k : Nat) (self : Automata)
    (hd : Dims self.grid self.cols self.rows) :
    Mirror (SymmetricAutomata.initializeSymmetric rnd k self).1 := by
  intro i hi j hj
  have hi' : i < self.cols := hi
  have hj' : j < self.rows := hj
  show getCell (SymmetricAutomata.initializeSymmetric rnd k self).1.grid i j =
    getCell (SymmetricAutomata.initializeSymmetric rnd k self).1.grid (self.cols - 1 - i) j
  have hf := (initializeSymmetric_facts rnd k self hd).2.2
  have h1 : i < halfCols self.cols ∨ self.cols - 1 - i < halfCols self.cols := by
    unfold halfCols
    omega
  have h2 : self.cols - 1 - i < halfCols self.cols ∨
      self.cols - 1 - (self.cols - 1 - i) < halfCols self.cols := by
    unfold halfCols
    omega
  have h3 : self.cols - 1 - i < self.cols := by omega
  have h4 : min (self.cols - 1 - i) (self.cols - 1 - (self.cols - 1 - i)) =
      min i (self.cols - 1 - i) := by omega
  rw [hf i j, hf (self.cols - 1 - i) j, if_pos ⟨h1, hi', hj'⟩, if_pos ⟨h2, h3, hj'⟩, h4]

/-- C1. Mirror invariant: for every outcome `rnd` of the random source and
all dimensions, the grid left by the constructor of `SymmetricAutomata`
(which runs `initializeSymmetric`) and the grid after any number `g ≥ 0` of
`nextGeneration` calls satisfy `grid[i][j] == grid[cols-1-i][j]` for all
`0 ≤ i < cols`, `0 ≤ j < rows`. -/
theorem symmetric_mirror_invariant (rnd : Nat → Int) (k cols rows resolution g : Nat) :
    Mirror (SymmetricAutomata.nextGeneration^[g]
      (SymmetricAutomata.new rnd k cols rows resolution).1) := by
  cases g with
  | zero =>
    exact initializeSymmetric_mirror rnd k (Automata.new cols rows resolution)
      (dims_make2DArray cols rows)
  | succ n =>
    rw [Function.iterate_succ_apply']
    exact symmetric_mirror _

/-- C1 on a 4×6 grid initialised via `initializeSymmetric` and run for 10
generations. -/
theorem symmetric_mirror_invariant_witness :
    Mirror (SymmetricAutomata.nextGeneration^[10]
      (SymmetricAutomata.new (fun n => if n % 3 = 0 then 1 else 0) 0 4 6 10).1) :=
  symmetric_mirror_invariant (fun n => if n % 3 = 0 then 1 else 0) 0 4 6 10 10

/-- C7 (the code at the failing input). `SymmetricAutomata` defines
`initializeSymmetric` but no `initialize`, so the call `automaton.initialize()`
of `setup()` runs `Automata.initialize`, which draws every cell afresh. On a
2×1 automaton, with a random source whose third draw is 1 and whose other
draws are 0, the grid after construction and `initialize()` is `[[0], [1]]`:
`grid[0][0] != grid[1][0]`. -/
theorem setupSymmetric_not_mirror :
    (setupSymmetric (fun n => if n = 2 then 1 else 0) 2 1 10).1.grid = [[0], [1]] ∧
    ¬ Mirror (setupSymmetric (fun n => if n = 2 then 1 else 0) 2 1 10).1 := by
  decide

/-! ## Fixed points of `GameOfLife.nextGeneration` -/

theorem gol_fixed_of_cells (cfg : Config) (self : Automata)
    (hd : Dims self.grid self.cols self.rows)
    (h : ∀ c < self.cols, ∀ r < self.rows,
      GameOfLife.rule cfg (getCell self.grid c r) (self.countNeighbors self.grid c r) =
        getCell self.grid c r) :
    GameOfLife.nextGeneration cfg self = self := by
  have hg : (GameOfLife.nextGeneration cfg self).grid = self.grid := by
    apply grid_ext (gol_dims cfg self) hd
    intro c hc r hr
    rw [gol_getCell cfg self c r hc hr]
    exact h c hc r hr
  have he : GameOfLife.nextGeneration cfg self =
      { self with grid := (GameOfLife.nextGeneration cfg self).grid } := rfl
  rw [he, hg]

theorem gol_universal_fixed (self : Automata) (hw : self.WellFormed) :
    GameOfLife.nextGeneration universalSurvival self = self := by
  apply gol_fixed_of_cells _ _ hw.1
  intro c hc r hr
  obtain ⟨h0, h8⟩ := countNeighbors_bounds self self.grid c r hw.2 hc hr
  have hmem : self.countNeighbors self.grid c r ∈ universalSurvival.survivalRule := by
    simp only [universalSurvival, List.mem_cons, List.mem_singleton]
    omega
  unfold GameOfLife.rule
  have hb : ¬ (getCell self.grid c r = 0 ∧
      universalSurvival.birthRule.contains (self.countNeighbors self.grid c r) = true) := by
    simp [universalSurvival]
  have hs : ¬ (getCell self.grid c r = 1 ∧
      ¬ universalSurvival.survivalRule.contains (self.countNeighbors self.grid c r) = true) := by
    intro hh
    exact hh.2 (by simpa [List.contains, List.elem_iff] using hmem)
  rw [if_neg hb, if_neg hs]

/-- C8. Universal-survival identity: with `birthRule = []` and
`survivalRule = [0,1,2,3,4,5,6,7,8]`, for every grid of `cols` columns of
`rows` cells that are all `0` or `1` and every `k ≥ 0`, applying
`GameOfLife.nextGeneration` `k` times leaves the grid equal, cell for cell,
to the original grid. -/
theorem gol_universal_survival (self : Automata) (hw : self.WellFormed) (k : Nat) :
    ((GameOfLife.nextGeneration universalSurvival)^[k] self).grid = self.grid := by
  rw [Function.iterate_fixed (gol_universal_fixed self hw) k]

/-- C8 on a 3×3 grid with five alive cells, after 7 generations. -/
theorem gol_universal_survival_witness :
    (Automata.mk 3 3 10 [[1, 0, 1], [0, 1, 0], [1, 1, 0]]).WellFormed ∧
    ((GameOfLife.nextGeneration universalSurvival)^[7]
        (Automata.mk 3 3 10 [[1, 0, 1], [0, 1, 0], [1, 1, 0]])).grid =
      [[1, 0, 1], [0, 1, 0], [1, 1, 0]] :=
  ⟨by decide,
    gol_universal_survival (Automata.mk 3 3 10 [[1, 0, 1], [0, 1, 0], [1, 1, 0]])
      (by decide) 7⟩

theorem dims_allDead (cols rows : Nat) : Dims (allDead cols rows) cols rows := by
  unfold allDead
  rw [← make2DArray_eq]
  exact dims_make2DArray cols rows

theorem getCell_allDead (cols rows c r : Nat) : getCell (allDead cols rows) c r = 0 := by
  unfold allDead
  rw [← make2DArray_eq]
  exact getCell_make2DArray cols rows c r

/-- C10. For all `cols` and `rows` (in particular `cols ≥ 1`, `rows ≥ 1`), the
all-dead grid is mapped by `GameOfLife.nextGeneration` with the default rules
`birthRule = [3]`, `survivalRule = [2,3]` to the all-dead grid. -/
theorem gol_all_dead (cols rows resolution : Nat) :
    (GameOfLife.nextGeneration config
      (Automata.mk cols rows resolution (allDead cols rows))).grid = allDead cols rows := by
  have hfix : GameOfLife.nextGeneration config
      (Automata.mk cols rows resolution (allDead cols rows)) =
      Automata.mk cols rows resolution (allDead cols rows) := by
    apply gol_fixed_of_cells _ _ (dims_allDead cols rows)
    intro c _ r _
    rw [countNeighbors_unfold]
    simp only [getCell_allDead]
    decide
  rw [hfix]

/-- C10 on the 3×2 all-dead grid. -/
theorem gol_all_dead_witness :
    allDead 3 2 = [[0, 0], [0, 0], [0, 0]] ∧
    (GameOfLife.nextGeneration config (Automata.mk 3 2 10 (allDead 3 2))).grid = allDead 3 2 :=
  ⟨by decide, gol_all_dead 3 2 10⟩

/-! ## The 2×2 block is a still life -/

theorem wrapIndex_succ (x n : Nat) (hx : x < n) :
    wrapIndex x 1 n = if x + 1 = n then 0 else x + 1 := by
  rw [wrapIndex_eq x n 1 (by omega) (by omega)]
  split_ifs with h
  · have e : ((x : Int) + 1) = (n : Int) := by omega
    rw [e, Int.emod_self]
    rfl
  · have e : ((x : Int) + 1) % (n : Int) = ((x : Int) + 1) :=
      Int.emod_eq_of_lt (by omega) (by omega)
    rw [e]
    omega

theorem wrapIndex_pred (x n : Nat) (hx : x < n) :
    wrapIndex x (-1) n = if x = 0 then n - 1 else x - 1 := by
  unfold wrapIndex
  rw [Int.tmod_eq_emod (by omega) (by omega)]
  split_ifs with h
  · have e : ((x : Int) + -1 + (n : Int)) % (n : Int) = (n : Int) - 1 := by
      rw [h]
      exact Int.emod_eq_of_lt (by omega) (by omega)
    rw [e]
    omega
  · have e : ((x : Int) + -1 + (n : Int)) % (n : Int) = (x : Int) - 1 := by
      rw [Int.add_emod_self]
      exact Int.emod_eq_of_lt (by omega) (by omega)
    rw [e]
    omega

theorem succ_mod (a n : Nat) (ha : a < n) :
    (a + 1) % n = if a + 1 = n then 0 else a + 1 := by
  split_ifs with h
  · rw [h, Nat.mod_self]
  · exact Nat.mod_eq_of_lt (by omega)

/-- Along one axis of length at least 4: a block index has exactly one
neighbour in the block, and no index sees more than two block indices. -/
theorem lineCell_sum (n a x : Nat) (hn : 4 ≤ n) (ha : a < n) (hx : x < n) :
    (lineCell n a x = 0 ∨ lineCell n a x = 1) ∧
    0 ≤ lineCell n a (wrapIndex x (-1) n) + lineCell n a x + lineCell n a (wrapIndex x 1 n) ∧
    lineCell n a (wrapIndex x (-1) n) + lineCell n a x + lineCell n a (wrapIndex x 1 n) ≤ 2 ∧
    (lineCell n a x = 1 →
      lineCell n a (wrapIndex x (-1) n) + lineCell n a x + lineCell n a (wrapIndex x 1 n) = 2) := by
  rw [wrapIndex_pred x n hx, wrapIndex_succ x n hx]
  unfold lineCell
  rw [succ_mod a n ha]
  refine ⟨?_, ?_, ?_, ?_⟩ <;> split_ifs <;>
    first
      | omega
      | (simp only [or_false] at *; omega)

theorem dims_blockGrid (cols rows a b : Nat) : Dims (blockGrid cols rows a b) cols rows := by
  unfold blockGrid
  refine ⟨by simp, ?_⟩
  intro col hcol
  obtain ⟨i, _, rfl⟩ := List.mem_map.mp hcol
  simp

theorem getCell_blockGrid (cols rows a b c r : Nat) (hc : c < cols) (hr : r < rows) :
    getCell (blockGrid cols rows a b) c r = lineCell cols a c * lineCell rows b r := by
  unfold getCell blockGrid lineCell
  simp only [List.getD_eq_getElem?_getD, List.getElem?_map, List.getElem?_range hc,
    List.getElem?_range hr, Option.map_some', Option.getD_some]
  split_ifs <;> simp_all

theorem countNeighbors_blockGrid (cols rows resolution a b x y : Nat)
    (hx : x < cols) (hy : y < rows) :
    (Automata.mk cols rows resolution (blockGrid cols rows a b)).countNeighbors
        (blockGrid cols rows a b) x y =
      (lineCell cols a (wrapIndex x (-1) cols) + lineCell cols a x
          + lineCell cols a (wrapIndex x 1 cols))
        * (lineCell rows b (wrapIndex y (-1) rows) + lineCell rows b y
          + lineCell rows b (wrapIndex y 1 rows))
        - lineCell cols a x * lineCell rows b y := by
  rw [countNeighbors_eight _ _ x y hx hy]
  simp only []
  have hxm := wrapIndex_lt x cols (-1) (by omega) (by omega)
  have hxp := wrapIndex_lt x cols 1 (by omega) (by omega)
  have hym := wrapIndex_lt y rows (-1) (by omega) (by omega)
  have hyp := wrapIndex_lt y rows 1 (by omega) (by omega)
  rw [getCell_blockGrid _ _ _ _ _ _ hxm hym, getCell_blockGrid _ _ _ _ _ _ hxm hy,
    getCell_blockGrid _ _ _ _ _ _ hxm hyp, getCell_blockGrid _ _ _ _ _ _ hx hym,
    getCell_blockGrid _ _ _ _ _ _ hx hyp, getCell_blockGrid _ _ _ _ _ _ hxp hym,
    getCell_blockGrid _ _ _ _ _ _ hxp hy, getCell_blockGrid _ _ _ _ _ _ hxp hyp]
  ring

/-- The neighbour counts around the block: 3 at its cells, never 3 elsewhere. -/
theorem blockGrid_counts (cols rows resolution a b x y : Nat)
    (hcols : 4 ≤ cols) (hrows : 4 ≤ rows) (ha : a < cols) (hb : b < rows)
    (hx : x < cols) (hy : y < rows) :
    (getCell (blockGrid cols rows a b) x y = 0 ∨ getCell (blockGrid cols rows a b) x y = 1) ∧
    (getCell (blockGrid cols rows a b) x y = 1 →
      (Automata.mk cols rows resolution (blockGrid cols rows a b)).countNeighbors
        (blockGrid cols rows a b) x y = 3) ∧
    (getCell (blockGrid cols rows a b) x y = 0 →
      (Automata.mk cols rows resolution (blockGrid cols rows a b)).countNeighbors
        (blockGrid cols rows a b) x y ≠ 3) := by
  rw [countNeighbors_blockGrid cols rows resolution a b x y hx hy,
    getCell_blockGrid cols rows a b x y hx hy]
  obtain ⟨p01, sa0, sa2, sap⟩ := lineCell_sum cols a x hcols ha hx
  obtain ⟨q01, sb0, sb2, sbq⟩ := lineCell_sum rows b y hrows hb hy
  generalize lineCell cols a (wrapIndex x (-1) cols) + lineCell cols a x
    + lineCell cols a (wrapIndex x 1 cols) = SA at *
  generalize lineCell rows b (wrapIndex y (-1) rows) + lineCell rows b y
    + lineCell rows b (wrapIndex y 1 rows) = SB at *
  generalize lineCell cols a x = p at *
  generalize lineCell rows b y = q at *
  rcases p01 with hp | hp <;> rcases q01 with hq | hq <;> subst hp <;> subst hq
  · refine ⟨Or.inl (by norm_num), fun h => absurd h (by norm_num), fun _ => ?_⟩
    interval_cases SA <;> interval_cases SB <;> norm_num
  · refine ⟨Or.inl (by norm_num), fun h => absurd h (by norm_num), fun _ => ?_⟩
    interval_cases SA <;> interval_cases SB <;> norm_num
  · refine ⟨Or.inl (by norm_num), fun h => absurd h (by norm_num), fun _ => ?_⟩
    interval_cases SA <;> interval_cases SB <;> norm_num
  · refine ⟨Or.inr (by norm_num), fun _ => ?_, fun h => absurd h (by norm_num)⟩
    rw [sap rfl, sbq rfl]
    norm_num

/-- C9. Still life: for all `cols ≥ 4`, `rows ≥ 4` and every block position
`(a, b)` on the grid, the grid whose alive cells are exactly the 2×2 block
`{a, a+1 mod cols} × {b, b+1 mod rows}` is unchanged by one
`GameOfLife.nextGeneration` under the default rules `birthRule = [3]`,
`survivalRule = [2,3]`: every block cell has exactly 3 alive neighbours and
no dead cell has exactly 3. -/
theorem gol_block_still_life (cols rows resolution a b : Nat)
    (hcols : 4 ≤ cols) (hrows : 4 ≤ rows) (ha : a < cols) (hb : b < rows) :
    (GameOfLife.nextGeneration config
      (Automata.mk cols rows resolution (blockGrid cols rows a b))).grid =
        blockGrid cols rows a b ∧
    ∀ x < cols, ∀ y < rows,
      (getCell (blockGrid cols rows a b) x y = 1 →
        (Automata.mk cols rows resolution (blockGrid cols rows a b)).countNeighbors
          (blockGrid cols rows a b) x y = 3) ∧
      (getCell (blockGrid cols rows a b) x y = 0 →
        (Automata.mk cols rows resolution (blockGrid cols rows a b)).countNeighbors
          (blockGrid cols rows a b) x y ≠ 3) := by
  refine ⟨?_, fun x hx y hy =>
    (blockGrid_counts cols rows resolution a b x y hcols hrows ha hb hx hy).2⟩
  have hfix : GameOfLife.nextGeneration config
      (Automata.mk cols rows resolution (blockGrid cols rows a b)) =
      Automata.mk cols rows resolution (blockGrid cols rows a b) := by
    apply gol_fixed_of_cells _ _ (dims_blockGrid cols rows a b)
    intro c hc r hr
    obtain ⟨h01, h1, h0⟩ :=
      blockGrid_counts cols rows resolution a b c r hcols hrows ha hb hc hr
    simp only [] at h01 h1 h0 ⊢
    unfold GameOfLife.rule
    rcases h01 with h | h
    · have hn := h0 h
      rw [h]
      simp [config, hn]
    · rw [h1 h, h]
      decide
  rw [hfix]

/-- C9 on the 6×6 grid with alive cells `(1,1)`, `(1,2)`, `(2,1)`, `(2,2)`. -/
theorem gol_block_still_life_witness :
    blockGrid 6 6 1 1 =
      [[0, 0, 0, 0, 0, 0], [0, 1, 1, 0, 0, 0], [0, 1, 1, 0, 0, 0],
       [0, 0, 0, 0, 0, 0], [0, 0, 0, 0, 0, 0], [0, 0, 0, 0, 0, 0]] ∧
    (GameOfLife.nextGeneration config (Automata.mk 6 6 10 (blockGrid 6 6 1 1))).grid =
      blockGrid 6 6 1 1 :=
  ⟨by decide,
    (gol_block_still_life 6 6 10 1 1 (by decide) (by decide) (by decide) (by decide)).1⟩

/-! ## The theorems at concrete inputs -/

/-- C4 on a 4×4 grid holding a line of three alive cells `(1,1)`, `(2,1)`,
`(3,1)`: the dead cell `(2,0)` has 3 alive neighbours and is born; the alive
cell `(1,1)` has 1 alive neighbour and dies; the alive cell `(2,1)` has 2 and
stays alive. -/
theorem gol_nextGeneration_spec_witness :
    getCell (GameOfLife.nextGeneration config
      (Automata.mk 4 4 10 [[0, 0, 0, 0], [0, 1, 0, 0], [0, 1, 0, 0], [0, 1, 0, 0]])).grid 2 0 = 1 ∧
    getCell (GameOfLife.nextGeneration config
      (Automata.mk 4 4 10 [[0, 0, 0, 0], [0, 1, 0, 0], [0, 1, 0, 0], [0, 1, 0, 0]])).grid 1 1 = 0 ∧
    getCell (GameOfLife.nextGeneration config
      (Automata.mk 4 4 10 [[0, 0, 0, 0], [0, 1, 0, 0], [0, 1, 0, 0], [0, 1, 0, 0]])).grid 2 1 = 1 :=
  ⟨(gol_nextGeneration_spec config
      (Automata.mk 4 4 10 [[0, 0, 0, 0], [0, 1, 0, 0], [0, 1, 0, 0], [0, 1, 0, 0]]) 2 0
      (by decide) (by decide)).1 (by decide),
   (gol_nextGeneration_spec config
      (Automata.mk 4 4 10 [[0, 0, 0, 0], [0, 1, 0, 0], [0, 1, 0, 0], [0, 1, 0, 0]]) 1 1
      (by decide) (by decide)).2.1 (by decide),
   ((gol_nextGeneration_spec config
      (Automata.mk 4 4 10 [[0, 0, 0, 0], [0, 1, 0, 0], [0, 1, 0, 0], [0, 1, 0, 0]]) 2 1
      (by decide) (by decide)).2.2 (by decide)).trans (by decide)⟩

/-- C5 on a 5×3 grid whose alive cells are `(2,0)` and `(2,1)`, in the middle
column: the cell `(2,0)` has one alive neighbour and dies, and no other write
reaches the middle column; the dead cell `(1,0)` stays dead, in column 1 and
in its mirror column 3. -/
theorem symmetric_nextGeneration_spec_witness :
    getCell (SymmetricAutomata.nextGeneration
      (Automata.mk 5 3 10 [[0, 0, 0], [0, 0, 0], [1, 1, 0], [0, 0, 0], [0, 0, 0]])).grid 2 0 = 0 ∧
    getCell (SymmetricAutomata.nextGeneration
      (Automata.mk 5 3 10 [[0, 0, 0], [0, 0, 0], [1, 1, 0], [0, 0, 0], [0, 0, 0]])).grid 1 0 = 0 ∧
    getCell (SymmetricAutomata.nextGeneration
      (Automata.mk 5 3 10 [[0, 0, 0], [0, 0, 0], [1, 1, 0], [0, 0, 0], [0, 0, 0]])).grid 3 0 = 0 :=
  ⟨(((symmetric_nextGeneration_spec
      (Automata.mk 5 3 10 [[0, 0, 0], [0, 0, 0], [1, 1, 0], [0, 0, 0], [0, 0, 0]])).1 2 0
        (by decide) (by decide)).1).trans (by decide),
   (((symmetric_nextGeneration_spec
      (Automata.mk 5 3 10 [[0, 0, 0], [0, 0, 0], [1, 1, 0], [0, 0, 0], [0, 0, 0]])).1 1 0
        (by decide) (by decide)).1).trans (by decide),
   (((symmetric_nextGeneration_spec
      (Automata.mk 5 3 10 [[0, 0, 0], [0, 0, 0], [1, 1, 0], [0, 0, 0], [0, 0, 0]])).1 1 0
        (by decide) (by decide)).2).trans (by decide)⟩

/-- C6 on a mirror-symmetric 4×4 grid in which exactly the two left-half
cells `(0,0)` and `(0,2)` flip (with their mirror images `(3,0)` and `(3,2)`):
the value of `changes` is 2, while 4 cells of the whole grid differ. -/
theorem symmetric_changes_exact_witness :
    SymmetricAutomata.changes
      (Automata.mk 4 4 10 [[1, 0, 1, 0], [0, 0, 0, 0], [0, 0, 0, 0], [1, 0, 1, 0]]) = 2 ∧
    ((Finset.range 4 ×ˢ Finset.range 4).filter (fun p =>
      2 * p.1 < 4 ∧
      getCell [[1, 0, 1, 0], [0, 0, 0, 0], [0, 0, 0, 0], [1, 0, 1, 0]] p.1 p.2 ≠
        getCell (SymmetricAutomata.nextGeneration
          (Automata.mk 4 4 10 [[1, 0, 1, 0], [0, 0, 0, 0], [0, 0, 0, 0], [1, 0, 1, 0]])).grid
          p.1 p.2)).card = 2 ∧
    ((Finset.range 4 ×ˢ Finset.range 4).filter (fun p =>
      getCell [[1, 0, 1, 0], [0, 0, 0, 0], [0, 0, 0, 0], [1, 0, 1, 0]] p.1 p.2 ≠
        getCell (SymmetricAutomata.nextGeneration
          (Automata.mk 4 4 10 [[1, 0, 1, 0], [0, 0, 0, 0], [0, 0, 0, 0], [1, 0, 1, 0]])).grid
          p.1 p.2)).card = 4 :=
  ⟨by decide,
   (symmetric_changes_exact
      (Automata.mk 4 4 10 [[1, 0, 1, 0], [0, 0, 0, 0], [0, 0, 0, 0], [1, 0, 1, 0]])).symm.trans
      (by decide),
   by decide⟩

/-! ## Index safety -/

theorem readCell?_eq {g : Grid} {m n : Nat} (hd : Dims g m n) (c r : Nat)
    (hc : c < m) (hr : r < n) :
    readCell? g (c : Int) (r : Int) = some (getCell g c r) := by
  have hlen : c < g.length := by rw [hd.1]; exact hc
  have hcol := dims_column hd hc
  unfold readCell? getCell
  simp only [Int.toNat_ofNat]
  rw [if_pos ⟨by omega, by omega⟩, if_pos ⟨by omega, by omega⟩]

theorem writeCell?_eq {g : Grid} {m n : Nat} (hd : Dims g m n) (c r : Nat)
    (hc : c < m) (hr : r < n) (v : Int) :
    writeCell? g (c : Int) (r : Int) v = some (setCell g c r v) := by
  have hlen : c < g.length := by rw [hd.1]; exact hc
  have hcol := dims_column hd hc
  unfold writeCell? setCell
  simp only [Int.toNat_ofNat]
  rw [if_pos ⟨by omega, by omega⟩, if_pos ⟨by omega, by omega⟩]

theorem wrapIndex_cast (x n : Nat) (d : Int) (hn : 1 ≤ n) (hd : -1 ≤ d) :
    Int.tmod ((x : Int) + d + (n : Int)) (n : Int) = ((wrapIndex x d n : Nat) : Int) := by
  unfold wrapIndex
  rw [Int.toNat_of_nonneg]
  rw [Int.tmod_eq_emod (by omega) (by omega)]
  exact Int.emod_nonneg _ (by omega)

/-- A checked `for` loop whose every iteration succeeds returns what the
unchecked loop computes. -/
theorem foldlM_range_some {σ : Type} (P : σ → Prop) (f : σ → Nat → σ)
    (fc : σ → Nat → Option σ) (s0 : σ) (n : Nat) (h0 : P s0)
    (hstep : ∀ k, k < n → ∀ s, P s → fc s k = some (f s k) ∧ P (f s k)) :
    (List.range n).foldlM fc s0 = some ((List.range n).foldl f s0) ∧
      P ((List.range n).foldl f s0) := by
  induction n with
  | zero => exact ⟨rfl, h0⟩
  | succ k ih =>
    obtain ⟨h1, h2⟩ := ih (fun j hj s hs => hstep j (Nat.lt_succ_of_lt hj) s hs)
    obtain ⟨h3, h4⟩ := hstep k (Nat.lt_succ_self k) _ h2
    rw [List.range_succ, List.foldlM_append, List.foldl_append, h1]
    simp only [List.foldl_cons, List.foldl_nil]
    refine ⟨?_, h4⟩
    simp [h3]

theorem countNeighborsChecked_eq (self : Automata) (grid : Grid) (x y : Nat)
    (hd : Dims grid self.cols self.rows) (hx : x < self.cols) (hy : y < self.rows) :
    self.countNeighborsChecked grid x y = some (self.countNeighbors grid x y) := by
  have r (d e : Int) (hd1 : -1 ≤ d) (he1 : -1 ≤ e) :
      readCell? grid (Int.tmod ((x : Int) + d + (self.cols : Int)) (self.cols : Int))
        (Int.tmod ((y : Int) + e + (self.rows : Int)) (self.rows : Int)) =
      some (getCell grid (wrapIndex x d self.cols) (wrapIndex y e self.rows)) := by
    rw [wrapIndex_cast x self.cols d (by omega) hd1, wrapIndex_cast y self.rows e (by omega) he1]
    exact readCell?_eq hd _ _ (wrapIndex_lt x _ d (by omega) hd1)
      (wrapIndex_lt y _ e (by omega) he1)
  rw [countNeighbors_unfold]
  unfold Automata.countNeighborsChecked offsets
  simp only [List.foldlM_cons, List.foldlM_nil, r (-1) (-1) (by omega) (by omega),
    r (-1) 0 (by omega) (by omega), r (-1) 1 (by omega) (by omega),
    r 0 (-1) (by omega) (by omega), r 0 0 (by omega) (by omega), r 0 1 (by omega) (by omega),
    r 1 (-1) (by omega) (by omega), r 1 0 (by omega) (by omega), r 1 1 (by omega) (by omega),
    readCell?_eq hd x y hx hy, Option.pure_def, Option.bind_eq_bind, Option.some_bind]

theorem symmetric_countNeighborsChecked_eq (self : Automata) (grid : Grid) (x y : Nat) :
    SymmetricAutomata.countNeighborsChecked self grid x y =
      self.countNeighborsChecked grid x y := rfl

theorem bind_pure_of_eq_some {α β : Type} {x : Option α} {a : α} (g : α → β)
    (h : x = some a) : (x >>= fun v => pure (g v)) = some (g a) := by
  rw [h]
  rfl

theorem gol_nextGenerationChecked_eq (cfg : Config) (self : Automata)
    (hd : Dims self.grid self.cols self.rows) :
    GameOfLife.nextGenerationChecked cfg self = some (GameOfLife.nextGeneration cfg self) := by
  unfold GameOfLife.nextGenerationChecked GameOfLife.nextGeneration
  refine bind_pure_of_eq_some (fun next => { self with grid := next }) ?_
  refine (foldlM_range_some (fun g : Grid => Dims g self.cols self.rows) _ _ _ _
    (dims_make2DArray _ _) ?_).1
  intro i hi g hg
  refine foldlM_range_some (fun g : Grid => Dims g self.cols self.rows) _ _ _ _ hg ?_
  intro j hj g' hg'
  simp only [readCell?_eq hd i j hi hj, countNeighborsChecked_eq self self.grid i j hd hi hj,
    Option.bind_eq_bind, Option.some_bind]
  split_ifs
  · exact ⟨writeCell?_eq hg' i j hi hj _, dims_setCell hg' _ _ _⟩
  · exact ⟨writeCell?_eq hg' i j hi hj _, dims_setCell hg' _ _ _⟩
  · exact ⟨writeCell?_eq hg' i j hi hj _, dims_setCell hg' _ _ _⟩

theorem symmetric_nextGenerationChecked_eq (self : Automata)
    (hd : Dims self.grid self.cols self.rows) :
    SymmetricAutomata.nextGenerationChecked self =
      some (SymmetricAutomata.nextGeneration self, SymmetricAutomata.changes self) := by
  unfold SymmetricAutomata.nextGenerationChecked SymmetricAutomata.nextGeneration
    SymmetricAutomata.changes SymmetricAutomata.nextLoop
  refine bind_pure_of_eq_some
    (fun st : Grid × Nat => (({ self with grid := st.1 } : Automata), st.2)) ?_
  refine (foldlM_range_some (fun st : Grid × Nat => Dims st.1 self.cols self.rows) _ _ _ _
    (dims_make2DArray _ _) ?_).1
  intro i hi st hst
  have hi2 : 2 * i < self.cols := (halfCols_lt _ _).mp hi
  have hic : i < self.cols := by omega
  have hm : self.cols - i - 1 < self.cols := by omega
  have hcast : (self.cols : Int) - (i : Int) - 1 = ((self.cols - i - 1 : Nat) : Int) := by omega
  refine foldlM_range_some (fun st : Grid × Nat => Dims st.1 self.cols self.rows) _ _ _ _ hst ?_
  intro j hj st' hst'
  have hst'' : Dims st'.1 self.cols self.rows := hst'
  simp only [readCell?_eq hd i j hic hj, symmetric_countNeighborsChecked_eq,
    symmetric_countNeighbors_eq,
    countNeighborsChecked_eq self self.grid i j hd hic hj,
    Option.bind_eq_bind, Option.some_bind, writeCell?_eq hst'' i j hic hj, Option.map_some',
    hcast]
  split_ifs
  · simp only [Option.some_bind, readCell?_eq (dims_setCell hst'' i j 1) i j hic hj,
      writeCell?_eq (dims_setCell hst'' i j 1) _ j hm hj, Option.pure_def]
    exact ⟨trivial, dims_setCell (dims_setCell hst'' _ _ _) _ _ _⟩
  · simp only [Option.some_bind, readCell?_eq (dims_setCell hst'' i j 0) i j hic hj,
      writeCell?_eq (dims_setCell hst'' i j 0) _ j hm hj, Option.pure_def]
    exact ⟨trivial, dims_setCell (dims_setCell hst'' _ _ _) _ _ _⟩
  · simp only [Option.some_bind, readCell?_eq (dims_setCell hst'' i j _) i j hic hj,
      writeCell?_eq (dims_setCell hst'' i j _) _ j hm hj, Option.pure_def]
    exact ⟨trivial, dims_setCell (dims_setCell hst'' _ _ _) _ _ _⟩

/-- C11. Index safety: for a grid of exactly `cols` columns of `rows` cells
(in particular for positive `cols` and `rows`), every array access of `countNeighbors` at a
valid `(x, y)`, and every read and write of `GameOfLife.nextGeneration` and of
`SymmetricAutomata.nextGeneration` (the mirrored write to column `cols-1-i`
included), uses a column index in `[0, cols)` and a row index in `[0, rows)`:
the executions with every access checked never take the out-of-range branch
and return what the unchecked functions compute. -/
theorem index_safety (cfg : Config) (self : Automata)
    (hd : Dims self.grid self.cols self.rows) :
    (∀ grid x y, Dims grid self.cols self.rows → x < self.cols → y < self.rows →
      self.countNeighborsChecked grid x y = some (self.countNeighbors grid x y) ∧
      SymmetricAutomata.countNeighborsChecked self grid x y =
        some (SymmetricAutomata.countNeighbors self grid x y)) ∧
    GameOfLife.nextGenerationChecked cfg self = some (GameOfLife.nextGeneration cfg self) ∧
    SymmetricAutomata.nextGenerationChecked self =
      some (SymmetricAutomata.nextGeneration self, SymmetricAutomata.changes self) :=
  ⟨fun grid x y hg hx hy =>
      ⟨countNeighborsChecked_eq self grid x y hg hx hy,
        countNeighborsChecked_eq self grid x y hg hx hy⟩,
    gol_nextGenerationChecked_eq cfg self hd,
    symmetric_nextGenerationChecked_eq self hd⟩

/-- C11 on a 3×2 grid: the checked executions succeed. The checks are real: a
read at column 3 is the out-of-range branch, and on a buffer that lacks its
third column the checked execution fails. -/
theorem index_safety_witness :
    Dims [[1, 0], [0, 1], [1, 1]] 3 2 ∧
    readCell? [[1, 0], [0, 1], [1, 1]] 3 0 = none ∧
    GameOfLife.nextGenerationChecked config (Automata.mk 3 2 10 [[1, 0], [0, 1]]) = none ∧
    GameOfLife.nextGenerationChecked config (Automata.mk 3 2 10 [[1, 0], [0, 1], [1, 1]]) =
      some (GameOfLife.nextGeneration config (Automata.mk 3 2 10 [[1, 0], [0, 1], [1, 1]])) ∧
    SymmetricAutomata.nextGenerationChecked (Automata.mk 3 2 10 [[1, 0], [0, 1], [1, 1]]) =
      some (SymmetricAutomata.nextGeneration (Automata.mk 3 2 10 [[1, 0], [0, 1], [1, 1]]),
        SymmetricAutomata.changes (Automata.mk 3 2 10 [[1, 0], [0, 1], [1, 1]])) :=
  ⟨by decide, by decide, by decide,
    (index_safety config (Automata.mk 3 2 10 [[1, 0], [0, 1], [1, 1]]) (by decide)).2⟩

/-! ## Construction with integer dimensions -/

theorem foldlM_ok {ε σ α : Type} (f : σ → α → σ) (l : List α) (s0 : σ) :
    (l.foldlM (fun s a => (Except.ok (f s a) : Except ε σ)) s0) = Except.ok (l.foldl f s0) := by
  induction l generalizing s0 with
  | nil => rfl
  | cons a t ih =>
    rw [List.foldlM_cons, List.foldl_cons]
    exact ih (f s0 a)

theorem make2DArrayRaw_valid (cols rows : Int) (hc : 0 ≤ cols ∧ cols < 4294967296)
    (hr : 0 ≤ rows ∧ rows < 4294967296) :
    Automata.make2DArrayRaw cols rows = Except.ok (Automata.make2DArray cols.toNat rows.toNat) := by
  unfold Automata.make2DArrayRaw Automata.make2DArray newArray
  rw [if_neg (by omega), if_neg (by omega)]
  exact foldlM_ok _ _ _

theorem make2DArrayRaw_cols_invalid (cols rows : Int) (hc : cols < 0 ∨ 4294967296 ≤ cols) :
    Automata.make2DArrayRaw cols rows = Except.error JsError.rangeError := by
  unfold Automata.make2DArrayRaw newArray
  rw [if_pos hc]
  rfl

theorem make2DArrayRaw_cols_zero (rows : Int) :
    Automata.make2DArrayRaw 0 rows = Except.ok [] := rfl

theorem make2DArrayRaw_rows_invalid (cols rows : Int) (hc : 0 < cols ∧ cols < 4294967296)
    (hr : rows < 0 ∨ 4294967296 ≤ rows) :
    Automata.make2DArrayRaw cols rows = Except.error JsError.rangeError := by
  unfold Automata.make2DArrayRaw newArray
  rw [if_neg (by omega), if_pos hr]
  obtain ⟨n, hn⟩ : ∃ n, cols.toNat = n + 1 := ⟨cols.toNat - 1, by omega⟩
  rw [hn]
  show List.foldlM _ [] (List.range (n + 1)) = _
  rw [List.range_succ_eq_map]
  rfl

/-- C12, as amended. The constructor tests nothing; for integer dimensions the
only failure is the `RangeError` of `new Array(n)`, thrown unless
`0 ≤ n < 2^32`. Construction fails with it when `cols < 0` (or `cols ≥ 2^32`),
and when `rows < 0` with `cols > 0`. With `cols = 0`, whatever `rows`,
construction succeeds and returns an automaton with an empty grid; with
`rows = 0` and `0 ≤ cols < 2^32` it succeeds and returns an automaton whose
grid has `cols` empty columns. -/
theorem construct_spec (cols rows : Int) (resolution : Nat) :
    (cols < 0 ∨ 4294967296 ≤ cols →
      Automata.construct cols rows resolution = Except.error JsError.rangeError) ∧
    (0 < cols ∧ rows < 0 →
      Automata.construct cols rows resolution = Except.error JsError.rangeError) ∧
    (cols = 0 → Automata.construct cols rows resolution =
      Except.ok { cols := 0, rows := rows, resolution := resolution, grid := [] }) ∧
    (rows = 0 ∧ 0 ≤ cols ∧ cols < 4294967296 → Automata.construct cols rows resolution =
      Except.ok { cols := cols, rows := 0, resolution := resolution,
                  grid := List.replicate cols.toNat [] }) := by
  refine ⟨?_, ?_, ?_, ?_⟩
  · intro h
    unfold Automata.construct
    rw [make2DArrayRaw_cols_invalid cols rows h]
    rfl
  · intro h
    unfold Automata.construct
    by_cases hbig : 4294967296 ≤ cols
    · rw [make2DArrayRaw_cols_invalid cols rows (Or.inr hbig)]
      rfl
    · rw [make2DArrayRaw_rows_invalid cols rows ⟨h.1, by omega⟩ (Or.inl h.2)]
      rfl
  · intro h
    subst h
    rfl
  · intro h
    obtain ⟨hr, hc0, hc1⟩ := h
    subst hr
    unfold Automata.construct
    rw [make2DArrayRaw_valid cols 0 ⟨hc0, hc1⟩ ⟨by decide, by decide⟩, make2DArray_eq]
    rfl

/-- C12 at `cols = 0`: the constructor returns an automaton with an empty
grid, and no error. -/
theorem construct_zero_cols :
    Automata.construct 0 5 10 =
      Except.ok { cols := 0, rows := 5, resolution := 10, grid := [] } ∧
    Automata.construct 0 5 10 ≠ Except.error JsError.rangeError :=
  ⟨rfl, fun h => by cases h⟩

/-- C12, as amended, at `cols = -1`, at `cols = 2^32`, at `rows = -1` and at
`rows = 0`. -/
theorem construct_spec_witness :
    Automata.construct (-1) 5 10 = Except.error JsError.rangeError ∧
    Automata.construct 4294967296 0 10 = Except.error JsError.rangeError ∧
    Automata.construct 2 (-1) 10 = Except.error JsError.rangeError ∧
    Automata.construct 2 0 10 =
      Except.ok { cols := 2, rows := 0, resolution := 10, grid := [[], []] } :=
  ⟨(construct_spec (-1) 5 10).1 (by decide),
   (construct_spec 4294967296 0 10).1 (by decide),
   (construct_spec 2 (-1) 10).2.1 (by decide),
   ((construct_spec 2 0 10).2.2.2 (by decide)).trans rfl⟩

/-! ## The base class and the tick handler -/

/-- C16. Calling `nextGeneration` on the base `Automata` fails with an error
for every automaton and produces no next grid: the automaton, and so its
grid, is left unchanged. -/
theorem base_nextGeneration_throws (self : Automata) :
    (Automata.nextGeneration self).1 =
      Except.error (JsError.error "nextGeneration function should be implemented by subclasses") ∧
    (∀ u, (Automata.nextGeneration self).1 ≠ Except.ok u) ∧
    (Automata.nextGeneration self).2 = self ∧
    (Automata.nextGeneration self).2.grid = self.grid := by
  refine ⟨rfl, ?_, rfl, rfl⟩
  intro u h
  have h' : (Except.error (JsError.error
      "nextGeneration function should be implemented by subclasses") : Except JsError Unit) =
      Except.ok u := h
  cases h'

/-- C13, as amended. For every value `n` of the frame counter, one call of
`draw()` applies `nextGeneration` once when `n % 20 != 0` and twice when
`n % 20 == 0`, and then increments the frame counter by 1. -/
theorem draw_spec {σ : Type} (nextGeneration : σ → σ) (automaton : σ) (n : Nat) :
    draw nextGeneration (automaton, n) =
      (nextGeneration^[if n % 20 = 0 then 2 else 1] automaton, n + 1) := by
  unfold draw
  by_cases h : n % 20 = 0
  · simp [h]
  · simp [h]

/-- C13 at `n = 1` and at `n = 0`, on a grid of period 2 under
`GameOfLife.nextGeneration`: at `n = 1` the automaton after `draw()` is the
first generation, not the second; at `n = 0` it is the second, not the third. -/
theorem draw_not_twice :
    draw (GameOfLife.nextGeneration config) (blinker, 1) =
      (GameOfLife.nextGeneration config blinker, 2) ∧
    draw (GameOfLife.nextGeneration config) (blinker, 1) ≠
      ((GameOfLife.nextGeneration config)^[2] blinker, 2) ∧
    draw (GameOfLife.nextGeneration config) (blinker, 0) =
      ((GameOfLife.nextGeneration config)^[2] blinker, 1) ∧
    draw (GameOfLife.nextGeneration config) (blinker, 0) ≠
      ((GameOfLife.nextGeneration config)^[3] blinker, 1) := by
  decide

/-- C13, as amended, at `n = 7` and `n = 40`, with a counter of calls in the
place of the automaton. -/
theorem draw_spec_witness :
    draw Nat.succ (0, 7) = (1, 8) ∧ draw Nat.succ (0, 40) = (2, 41) :=
  ⟨draw_spec Nat.succ 0 7, draw_spec Nat.succ 0 40⟩

/-! ## The draws of `initializeSymmetric` -/

theorem initializeSymmetric_draws (rnd : Nat → Int) (k : Nat) (self : Automata)
    (hd : Dims self.grid self.cols self.rows) :
    (SymmetricAutomata.initializeSymmetric rnd k self).2 =
      k + halfCols self.cols * self.rows ∧
    ∀ c r, c < self.cols → r < self.rows →
      getCell (SymmetricAutomata.initializeSymmetric rnd k self).1.grid c r =
        rnd (k + min c (self.cols - 1 - c) * self.rows + r) := by
  obtain ⟨_, h2, h3⟩ := initializeSymmetric_facts rnd k self hd
  refine ⟨?_, ?_⟩
  · rw [h2]
    simp
  · intro c r hc hr
    have h : c < halfCols self.cols ∨ self.cols - 1 - c < halfCols self.cols := by
      unfold halfCols
      omega
    rw [h3 c r, if_pos ⟨h, hc, hr⟩]
    simp

/-- C14, as amended. For all `cols` and `rows`, `initializeSymmetric` makes
one draw per cell of the columns `i` with `2 * i < cols`, that is
`0 ≤ i < ceil(cols/2)`: `ceil(cols/2) * rows` draws, the draw of index
`i * rows + j` being assigned to cell `(i, j)` and copied into column
`cols-1-i`, so that every cell `(c, r)` holds the draw made for
`(min(c, cols-1-c), r)`. The middle column of an odd `cols` is drawn, and is
its own mirror; for an even `cols` the count is `floor(cols/2) * rows`. -/
theorem initializeSymmetric_spec (rnd : Nat → Int) (k cols rows resolution : Nat) :
    (SymmetricAutomata.new rnd k cols rows resolution).2 = k + (cols + 1) / 2 * rows ∧
    (∀ i j, 2 * i < cols → j < rows →
      getCell (SymmetricAutomata.new rnd k cols rows resolution).1.grid i j =
        rnd (k + i * rows + j) ∧
      getCell (SymmetricAutomata.new rnd k cols rows resolution).1.grid (cols - 1 - i) j =
        rnd (k + i * rows + j)) ∧
    (∀ c r, c < cols → r < rows →
      getCell (SymmetricAutomata.new rnd k cols rows resolution).1.grid c r =
        rnd (k + min c (cols - 1 - c) * rows + r)) ∧
    (cols % 2 = 0 →
      (SymmetricAutomata.new rnd k cols rows resolution).2 = k + cols / 2 * rows) := by
  have h := initializeSymmetric_draws rnd k (Automata.new cols rows resolution)
    (dims_make2DArray cols rows)
  have h1 : (SymmetricAutomata.new rnd k cols rows resolution).2 =
      k + (cols + 1) / 2 * rows := h.1
  have h2 : ∀ c r, c < cols → r < rows →
      getCell (SymmetricAutomata.new rnd k cols rows resolution).1.grid c r =
        rnd (k + min c (cols - 1 - c) * rows + r) := h.2
  refine ⟨h1, ?_, h2, ?_⟩
  · intro i j hi hj
    have e1 : min i (cols - 1 - i) = i := by omega
    have e2 : min (cols - 1 - i) (cols - 1 - (cols - 1 - i)) = i := by omega
    refine ⟨?_, ?_⟩
    · rw [h2 i j (by omega) hj, e1]
    · rw [h2 (cols - 1 - i) j (by omega) hj, e2]
  · intro he
    have e : (cols + 1) / 2 = cols / 2 := by omega
    rw [h1, e]

/-- C14 on a 3×2 automaton, with a random source whose third draw is 1 and
whose other draws are 0: four draws are made, not `floor(3/2) * 2 = 2`, and
the third draw lands in the middle column. -/
theorem initializeSymmetric_odd_cols :
    (SymmetricAutomata.new (fun n => if n = 2 then 1 else 0) 0 3 2 10).2 = 4 ∧
    3 / 2 * 2 = 2 ∧
    (SymmetricAutomata.new (fun n => if n = 2 then 1 else 0) 0 3 2 10).1.grid =
      [[0, 0], [1, 0], [0, 0]] := by
  decide

/-- C14, as amended, on the 3×2 automaton: four draws, and the cell `(1, 0)`
of the middle column holds the draw of index `1 * 2 + 0`. -/
theorem initializeSymmetric_spec_witness :
    (SymmetricAutomata.new (fun n => if n = 2 then 1 else 0) 0 3 2 10).2 = 4 ∧
    getCell (SymmetricAutomata.new (fun n => if n = 2 then 1 else 0) 0 3 2 10).1.grid 1 0 = 1 :=
  ⟨(initializeSymmetric_spec (fun n => if n = 2 then 1 else 0) 0 3 2 10).1,
   (((initializeSymmetric_spec (fun n => if n = 2 then 1 else 0) 0 3 2 10).2.1 1 0
      (by decide) (by decide)).1).trans (by decide)⟩

/-! ## Well-formedness is preserved -/

theorem binary_of_cells {g : Grid} {m n : Nat} (hd : Dims g m n)
    (h : ∀ c < m, ∀ r < n, getCell g c r = 0 ∨ getCell g c r = 1) : Binary g := by
  intro col hcol v hv
  obtain ⟨c, hc, rfl⟩ := List.getElem_of_mem hcol
  obtain ⟨r, hr, rfl⟩ := List.getElem_of_mem hv
  have hcm : c < m := by rw [← hd.1]; exact hc
  have hrn : r < n := by rw [← hd.2 _ (List.getElem_mem hc)]; exact hr
  have := h c hcm r hrn
  simpa [getCell, List.getD_eq_getElem?_getD, List.getElem?_eq_getElem hc,
    List.getElem?_eq_getElem hr] using this

theorem gol_rule_binary (cfg : Config) (s n : Int) (hs : s = 0 ∨ s = 1) :
    GameOfLife.rule cfg s n = 0 ∨ GameOfLife.rule cfg s n = 1 := by
  unfold GameOfLife.rule
  split_ifs
  · exact Or.inr rfl
  · exact Or.inl rfl
  · exact hs

theorem symmetric_rule_binary (s n : Int) (hs : s = 0 ∨ s = 1) :
    SymmetricAutomata.rule s n = 0 ∨ SymmetricAutomata.rule s n = 1 := by
  unfold SymmetricAutomata.rule
  split_ifs
  · exact Or.inr rfl
  · exact Or.inl rfl
  · exact hs

theorem gol_wellFormed (cfg : Config) (self : Automata) (hw : self.WellFormed) :
    (GameOfLife.nextGeneration cfg self).WellFormed := by
  refine ⟨gol_dims cfg self, binary_of_cells (gol_dims cfg self) ?_⟩
  intro c hc r hr
  rw [gol_getCell cfg self c r hc hr]
  exact gol_rule_binary cfg _ _ (getCell_binary hw.2 c r)

theorem symmetric_wellFormed (self : Automata) (hw : self.WellFormed) :
    (SymmetricAutomata.nextGeneration self).WellFormed := by
  refine ⟨symmetric_dims self, binary_of_cells (symmetric_dims self) ?_⟩
  intro c hc r hr
  rw [symmetric_getCell self c r hc hr]
  exact symmetric_rule_binary _ _ (getCell_binary hw.2 _ r)

/-- C15. Grid well-formedness is preserved: if the grid has exactly `cols`
columns of `rows` cells each and every cell is `0` or `1`, then after
`GameOfLife.nextGeneration` (for any `birthRule` and `survivalRule`) and after
`SymmetricAutomata.nextGeneration` the new grid again has exactly `cols`
columns of `rows` cells, every cell is `0` or `1`, and `cols` and `rows` are
unchanged. -/
theorem wellFormed_preserved (cfg : Config) (self : Automata) (hw : self.WellFormed) :
    (Dims (GameOfLife.nextGeneration cfg self).grid self.cols self.rows ∧
      Binary (GameOfLife.nextGeneration cfg self).grid ∧
      (GameOfLife.nextGeneration cfg self).cols = self.cols ∧
      (GameOfLife.nextGeneration cfg self).rows = self.rows) ∧
    (Dims (SymmetricAutomata.nextGeneration self).grid self.cols self.rows ∧
      Binary (SymmetricAutomata.nextGeneration self).grid ∧
      (SymmetricAutomata.nextGeneration self).cols = self.cols ∧
      (SymmetricAutomata.nextGeneration self).rows = self.rows) :=
  ⟨⟨(gol_wellFormed cfg self hw).1, (gol_wellFormed cfg self hw).2, rfl, rfl⟩,
   ⟨(symmetric_wellFormed self hw).1, (symmetric_wellFormed self hw).2, rfl, rfl⟩⟩

/-- C15 on a 3×3 grid with five alive cells. -/
theorem wellFormed_preserved_witness :
    (Automata.mk 3 3 10 [[1, 0, 1], [0, 1, 0], [1, 1, 0]]).WellFormed ∧
    (GameOfLife.nextGeneration config
      (Automata.mk 3 3 10 [[1, 0, 1], [0, 1, 0], [1, 1, 0]])).WellFormed ∧
    (SymmetricAutomata.nextGeneration
      (Automata.mk 3 3 10 [[1, 0, 1], [0, 1, 0], [1, 1, 0]])).WellFormed :=
  ⟨by decide,
   ⟨(wellFormed_preserved config (Automata.mk 3 3 10 [[1, 0, 1], [0, 1, 0], [1, 1, 0]])
      (by decide)).1.1,
    (wellFormed_preserved config (Automata.mk 3 3 10 [[1, 0, 1], [0, 1, 0], [1, 1, 0]])
      (by decide)).1.2.1⟩,
   ⟨(wellFormed_preserved config (Automata.mk 3 3 10 [[1, 0, 1], [0, 1, 0], [1, 1, 0]])
      (by decide)).2.1,
    (wellFormed_preserved config (Automata.mk 3 3 10 [[1, 0, 1], [0, 1, 0], [1, 1, 0]])
      (by decide)).2.2.1⟩⟩

/-! ## The symmetric update against the full update -/

theorem rules_agree (s n : Int) :
    SymmetricAutomata.rule s n = GameOfLife.rule config s n := by
  unfold SymmetricAutomata.rule GameOfLife.rule config
  simp only [List.contains, List.elem_iff, List.mem_cons, List.mem_singleton, List.mem_nil_iff,
    or_false]
  have h : (n < 2 ∨ n > 3) ↔ ¬ (n = 2 ∨ n = 3) := by omega
  simp only [h]

theorem wrapIndex_mirror_succ (c n : Nat) (hc : c < n) :
    wrapIndex (n - 1 - c) 1 n = n - 1 - wrapIndex c (-1) n := by
  rw [wrapIndex_succ _ _ (by omega), wrapIndex_pred _ _ hc]
  split_ifs <;> omega

theorem wrapIndex_mirror_pred (c n : Nat) (hc : c < n) :
    wrapIndex (n - 1 - c) (-1) n = n - 1 - wrapIndex c 1 n := by
  rw [wrapIndex_pred _ _ (by omega), wrapIndex_succ _ _ hc]
  split_ifs <;> omega

/-- On a mirror-symmetric grid the count at a cell and at its mirror image
agree. -/
theorem countNeighbors_mirror (self : Automata) (hm : Mirror self) (c r : Nat)
    (hc : c < self.cols) (hr : r < self.rows) :
    self.countNeighbors self.grid (self.cols - 1 - c) r = self.countNeighbors self.grid c r := by
  have hc' : self.cols - 1 - c < self.cols := by omega
  rw [countNeighbors_eight self self.grid _ r hc' hr, countNeighbors_eight self self.grid c r hc hr,
    wrapIndex_mirror_succ c _ hc, wrapIndex_mirror_pred c _ hc]
  have hp := wrapIndex_lt c self.cols 1 (by omega) (by omega)
  have hq := wrapIndex_lt c self.cols (-1) (by omega) (by omega)
  have hrm := wrapIndex_lt r self.rows (-1) (by omega) (by omega)
  have hrp := wrapIndex_lt r self.rows 1 (by omega) (by omega)
  rw [← hm _ hp _ hrm, ← hm _ hp _ hr, ← hm _ hp _ hrp, ← hm _ hq _ hrm, ← hm _ hq _ hr,
    ← hm _ hq _ hrp, ← hm _ hc _ hrm, ← hm _ hc _ hrp]
  ring

theorem symmetric_eq_gol (self : Automata) (hm : Mirror self) :
    SymmetricAutomata.nextGeneration self = GameOfLife.nextGeneration config self := by
  have hg : (SymmetricAutomata.nextGeneration self).grid =
      (GameOfLife.nextGeneration config self).grid := by
    apply grid_ext (symmetric_dims self) (gol_dims config self)
    intro c hc r hr
    rw [symmetric_getCell self c r hc hr, gol_getCell config self c r hc hr, rules_agree,
      symmetric_countNeighbors_eq]
    rcases Nat.le_total c (self.cols - 1 - c) with h | h
    · rw [Nat.min_eq_left h]
    · rw [Nat.min_eq_right h, countNeighbors_mirror self hm c r hc hr, ← hm c hc r hr]
  have e1 : SymmetricAutomata.nextGeneration self =
      { self with grid := (SymmetricAutomata.nextGeneration self).grid } := rfl
  have e2 : GameOfLife.nextGeneration config self =
      { self with grid := (GameOfLife.nextGeneration config self).grid } := rfl
  rw [e1, e2, hg]

/-- C17. On every mirror-symmetric grid (`grid[i][j] == grid[cols-1-i][j]`
for all valid `i`, `j`), in particular on every such grid of `0`/`1` cells
with `cols ≥ 1` and `rows ≥ 1`, `SymmetricAutomata.nextGeneration` produces
exactly the grid that `GameOfLife.nextGeneration` produces with
`birthRule = [3]` and `survivalRule = [2,3]`: copying the left half yields
what simulating the right half on its own yields. -/
theorem symmetric_refines_gol (self : Automata) (hm : Mirror self) :
    (SymmetricAutomata.nextGeneration self).grid =
      (GameOfLife.nextGeneration config self).grid := by
  rw [symmetric_eq_gol self hm]

/-- C17 on a mirror-symmetric 5×3 grid. -/
theorem symmetric_refines_gol_witness :
    Mirror (Automata.mk 5 3 10 [[1, 0, 1], [0, 1, 1], [1, 1, 0], [0, 1, 1], [1, 0, 1]]) ∧
    (SymmetricAutomata.nextGeneration
      (Automata.mk 5 3 10 [[1, 0, 1], [0, 1, 1], [1, 1, 0], [0, 1, 1], [1, 0, 1]])).grid =
    (GameOfLife.nextGeneration config
      (Automata.mk 5 3 10 [[1, 0, 1], [0, 1, 1], [1, 1, 0], [0, 1, 1], [1, 0, 1]])).grid :=
  ⟨by decide,
   symmetric_refines_gol
     (Automata.mk 5 3 10 [[1, 0, 1], [0, 1, 1], [1, 1, 0], [0, 1, 1], [1, 0, 1]]) (by decide)⟩

/-! ## Translation on the torus -/

theorem shiftIndex_lt (n : Nat) (a : Int) (i : Nat) (hn : 1 ≤ n) : shiftIndex n a i < n := by
  unfold shiftIndex
  have h1 : 0 ≤ ((i : Int) + a) % (n : Int) := Int.emod_nonneg _ (by omega)
  have h2 : ((i : Int) + a) % (n : Int) < (n : Int) := Int.emod_lt_of_pos _ (by omega)
  omega

theorem wrapIndex_shiftIndex (n : Nat) (a : Int) (i : Nat) (d : Int) (hn : 1 ≤ n)
    (hd : -1 ≤ d) :
    wrapIndex (shiftIndex n a i) d n = shiftIndex n a (wrapIndex i d n) := by
  rw [wrapIndex_eq _ n d hn hd, wrapIndex_eq i n d hn hd]
  unfold shiftIndex
  rw [Int.toNat_of_nonneg (Int.emod_nonneg _ (by omega)),
    Int.toNat_of_nonneg (Int.emod_nonneg _ (by omega)), Int.emod_add_emod, Int.emod_add_emod]
  congr 2
  ring

theorem dims_shiftGrid (cols rows : Nat) (a b : Int) (g : Grid) :
    Dims (shiftGrid cols rows a b g) cols rows := by
  unfold shiftGrid
  refine ⟨by simp, ?_⟩
  intro col hcol
  obtain ⟨i, _, rfl⟩ := List.mem_map.mp hcol
  simp

theorem getCell_shiftGrid (cols rows : Nat) (a b : Int) (g : Grid) (c r : Nat)
    (hc : c < cols) (hr : r < rows) :
    getCell (shiftGrid cols rows a b g) c r =
      getCell g (shiftIndex cols a c) (shiftIndex rows b r) := by
  have h : getCell (shiftGrid cols rows a b g) c r =
      (((List.range cols).map (fun i => (List.range rows).map (fun j =>
        getCell g (shiftIndex cols a i) (shiftIndex rows b j)))).getD c []).getD r 0 := rfl
  rw [h]
  simp only [List.getD_eq_getElem?_getD, List.getElem?_map, List.getElem?_range hc,
    List.getElem?_range hr, Option.map_some', Option.getD_some]

theorem countNeighbors_shiftGrid (cols rows resolution : Nat) (a b : Int) (g : Grid)
    (x y : Nat) (hx : x < cols) (hy : y < rows) :
    (Automata.mk cols rows resolution (shiftGrid cols rows a b g)).countNeighbors
        (shiftGrid cols rows a b g) x y =
      (Automata.mk cols rows resolution g).countNeighbors g
        (shiftIndex cols a x) (shiftIndex rows b y) := by
  have hcols : 1 ≤ cols := by omega
  have hrows : 1 ≤ rows := by omega
  rw [countNeighbors_eight _ _ x y hx hy,
    countNeighbors_eight _ _ _ _ (shiftIndex_lt cols a x hcols) (shiftIndex_lt rows b y hrows)]
  simp only []
  have hxm := wrapIndex_lt x cols (-1) hcols (by omega)
  have hxp := wrapIndex_lt x cols 1 hcols (by omega)
  have hym := wrapIndex_lt y rows (-1) hrows (by omega)
  have hyp := wrapIndex_lt y rows 1 hrows (by omega)
  rw [getCell_shiftGrid _ _ _ _ _ _ _ hxm hym, getCell_shiftGrid _ _ _ _ _ _ _ hxm hy,
    getCell_shiftGrid _ _ _ _ _ _ _ hxm hyp, getCell_shiftGrid _ _ _ _ _ _ _ hx hym,
    getCell_shiftGrid _ _ _ _ _ _ _ hx hyp, getCell_shiftGrid _ _ _ _ _ _ _ hxp hym,
    getCell_shiftGrid _ _ _ _ _ _ _ hxp hy, getCell_shiftGrid _ _ _ _ _ _ _ hxp hyp,
    wrapIndex_shiftIndex cols a x (-1) hcols (by omega),
    wrapIndex_shiftIndex cols a x 1 hcols (by omega),
    wrapIndex_shiftIndex rows b y (-1) hrows (by omega),
    wrapIndex_shiftIndex rows b y 1 hrows (by omega)]

/-- C18. Toroidal translation equivariance: for every grid, every shift
`(a, b)` and all `birthRule` and `survivalRule`, where
`shift(g)[i][j] = g[(i+a) mod cols][(j+b) mod rows]`, the result of
`GameOfLife.nextGeneration` on `shift(g)` is `shift` applied to the result of
`GameOfLife.nextGeneration` on `g`. -/
theorem gol_shift_equivariant (cfg : Config) (cols rows resolution : Nat) (a b : Int)
    (g : Grid) :
    (GameOfLife.nextGeneration cfg
        (Automata.mk cols rows resolution (shiftGrid cols rows a b g))).grid =
      shiftGrid cols rows a b
        (GameOfLife.nextGeneration cfg (Automata.mk cols rows resolution g)).grid := by
  apply grid_ext (gol_dims cfg _) (dims_shiftGrid cols rows a b _)
  intro c hc r hr
  have hc' : c < cols := hc
  have hr' : r < rows := hr
  rw [gol_getCell cfg _ c r hc hr]
  simp only []
  rw [getCell_shiftGrid cols rows a b g c r hc' hr',
    countNeighbors_shiftGrid cols rows resolution a b g c r hc' hr',
    getCell_shiftGrid cols rows a b _ c r hc' hr',
    gol_getCell cfg (Automata.mk cols rows resolution g) _ _
      (shiftIndex_lt cols a c (by omega)) (shiftIndex_lt rows b r (by omega))]

/-- C18 on a 4×3 grid shifted by `(1, -1)`. -/
theorem gol_shift_equivariant_witness :
    shiftGrid 4 3 1 (-1) [[1, 0, 0], [0, 1, 1], [0, 0, 1], [0, 0, 0]] =
      [[1, 0, 1], [1, 0, 0], [0, 0, 0], [0, 1, 0]] ∧
    (GameOfLife.nextGeneration config
        (Automata.mk 4 3 10 (shiftGrid 4 3 1 (-1) [[1, 0, 0], [0, 1, 1], [0, 0, 1], [0, 0, 0]]))).grid =
      shiftGrid 4 3 1 (-1)
        (GameOfLife.nextGeneration config
          (Automata.mk 4 3 10 [[1, 0, 0], [0, 1, 1], [0, 0, 1], [0, 0, 0]])).grid :=
  ⟨by decide,
   gol_shift_equivariant config 4 3 10 1 (-1) [[1, 0, 0], [0, 1, 1], [0, 0, 1], [0, 0, 0]]⟩

/-- C16 on the 5×5 grid `blinker`: the call fails and the grid is the one it
was. -/
theorem base_nextGeneration_throws_witness :
    (Automata.nextGeneration blinker).1 =
      Except.error (JsError.error "nextGeneration function should be implemented by subclasses") ∧
    (Automata.nextGeneration blinker).2.grid = blinker.grid :=
  ⟨(base_nextGeneration_throws blinker).1, (base_nextGeneration_throws blinker).2.2.2⟩

end Sketch
